import Mathlib

/-!
Verification of the participant-registration bot (`src/main.py`).

The development shallowly embeds the program:

* the SQLite participant table (`CREATE_TABLE_SQL`, `insert_participant`,
  `reset_database`, `get_by_telegram_id`, `get_by_phone`,
  `fetch_participants`, `count_participants`, `_range_where_clause`) becomes
  a `Store` value with an explicit AUTOINCREMENT sequence counter, and the
  UNIQUE column constraints become checks inside `insert_participant`;
* SQLite TEXT comparison (memcmp on the UTF-8 bytes, used by the
  `created_at >= ? / created_at < ?` WHERE clauses) becomes `charListLe` /
  `charListLt` over the code points, which agrees with memcmp on the ASCII
  timestamps the program stores;
* the aiogram FSM (`FSMContext` state + data dict) becomes `Session`;
* each `async def` handler becomes a pure function from
  store x session x message to an `HOut` (new store, new session, replies,
  and a flag recording an uncaught Python exception);
* the dispatcher registrations in `main()` become `dispatch`, which tries
  the handlers in their registration order.

Python string primitives used by the handlers (`str.strip`, `str.split`,
`str.lower`, `str.replace`) are modelled over ASCII, which covers every
string the handlers compare against.
-/

/-- Python `str.strip()` whitespace set (ASCII part). -/
def isPySpace (c : Char) : Bool :=
  c = ' ' || c = '\t' || c = '\n' || c = '\r' || c = '\x0b' || c = '\x0c'

/-- Python `s.strip()` with no arguments. -/
def pyStrip (s : String) : String :=
  String.mk (((s.data.dropWhile isPySpace).reverse.dropWhile isPySpace).reverse)

/-- Python `s.lower()` on ASCII letters. -/
def pyLower (s : String) : String :=
  String.mk (s.data.map (fun c =>
    if 65 ≤ c.toNat && c.toNat ≤ 90 then Char.ofNat (c.toNat + 32) else c))

def splitWsAux : List Char → List Char → List (List Char)
  | [], acc => if acc = [] then [] else [acc.reverse]
  | c :: cs, acc =>
    if isPySpace c then
      if acc = [] then splitWsAux cs [] else acc.reverse :: splitWsAux cs []
    else splitWsAux cs (c :: acc)

/-- Python `s.split()` with no arguments: split on whitespace runs. -/
def pySplit (s : String) : List String :=
  (splitWsAux s.data []).map String.mk

def removeFirstAux (pat : List Char) : List Char → List Char
  | [] => []
  | c :: cs =>
    if pat.isPrefixOf (c :: cs) then (cs.drop (pat.length - 1))
    else c :: removeFirstAux pat cs

/-- Python `s.replace(pat, "", 1)`: drop the first occurrence of `pat`. -/
def removeFirst (pat : String) (s : String) : String :=
  String.mk (removeFirstAux pat.data s.data)

/-- Python `s.replace(" ", x)` for a one-char replacement. -/
def replaceSpaces (r : Char) (s : String) : String :=
  String.mk (s.data.map (fun c => if c = ' ' then r else c))

/-- `normalize_phone` (src/main.py:213): `phone.strip().replace(" ", "")`. -/
def normalize_phone (phone : String) : String :=
  String.mk ((pyStrip phone).data.filter (fun c => c ≠ ' '))

/-- Byte-wise (memcmp) strict comparison, as SQLite compares TEXT values. -/
def charListLt : List Char → List Char → Bool
  | _, [] => false
  | [], _ :: _ => true
  | a :: as, b :: bs =>
    if a.toNat < b.toNat then true
    else if b.toNat < a.toNat then false
    else charListLt as bs

/-- Byte-wise (memcmp) non-strict comparison. -/
def charListLe : List Char → List Char → Bool
  | [], _ => true
  | _ :: _, [] => false
  | a :: as, b :: bs =>
    if a.toNat < b.toNat then true
    else if b.toNat < a.toNat then false
    else charListLe as bs

def strLt (s t : String) : Bool := charListLt s.data t.data

def strLe (s t : String) : Bool := charListLe s.data t.data

-- ---------- DB ----------

/-- One row of the `participants` table (`CREATE_TABLE_SQL`, src/main.py:54). -/
structure Participant where
  id : Nat
  telegram_id : Int
  phone : String
  first_name : String
  last_name : String
  consent : Int
  created_at : String
deriving DecidableEq, Repr

/-- The `participants` table plus its `sqlite_sequence` AUTOINCREMENT counter.
Rows are kept in insertion (= `id`-ascending) order. -/
structure Store where
  rows : List Participant
  seq : Nat
deriving DecidableEq, Repr

def emptyStore : Store := ⟨[], 0⟩

/-- Which UNIQUE column an `aiosqlite.IntegrityError` came from. -/
inductive DupField where
  | identity
  | phone
deriving DecidableEq, Repr

/-- `insert_participant` (src/main.py:93): the storage layer itself rejects a
row that collides on the UNIQUE `telegram_id` or `phone` column and otherwise
assigns `lastrowid = seq + 1` (AUTOINCREMENT). -/
def insert_participant (s : Store) (telegram_id : Int) (phone first_name last_name : String)
    (consent : Int) (created_at : String) : Except DupField (Nat × Store) :=
  if s.rows.any (fun p => p.telegram_id = telegram_id) then .error .identity
  else if s.rows.any (fun p => p.phone = phone) then .error .phone
  else
    let pid := s.seq + 1
    .ok (pid, ⟨s.rows ++ [⟨pid, telegram_id, phone, first_name, last_name, consent, created_at⟩], pid⟩)

/-- `reset_database` (src/main.py:136): `DELETE FROM participants` plus
`DELETE FROM sqlite_sequence WHERE name='participants'`. -/
def reset_database (_s : Store) : Store := ⟨[], 0⟩

/-- `get_by_telegram_id` (src/main.py:73). -/
def get_by_telegram_id (s : Store) (telegram_id : Int) : Option Participant :=
  s.rows.find? (fun p => p.telegram_id = telegram_id)

/-- `get_by_phone` (src/main.py:83). -/
def get_by_phone (s : Store) (phone : String) : Option Participant :=
  s.rows.find? (fun p => p.phone = phone)

/-- `_range_where_clause` (src/main.py:106) applied to one row:
`created_at >= from_iso AND created_at < to_iso`, each bound optional. -/
def rowInRange (from_iso to_iso : Option String) (created_at : String) : Bool :=
  (match from_iso with
   | none => true
   | some f => strLe f created_at) &&
  (match to_iso with
   | none => true
   | some t => strLt created_at t)

/-- `fetch_participants` (src/main.py:117).  `ORDER BY id ASC` is the
insertion order in which `Store.rows` is maintained. -/
def fetch_participants (s : Store) (from_iso to_iso : Option String) : List Participant :=
  s.rows.filter (fun p => rowInRange from_iso to_iso p.created_at)

/-- `count_participants` (src/main.py:128). -/
def count_participants (s : Store) (from_iso to_iso : Option String) : Nat :=
  (s.rows.filter (fun p => rowInRange from_iso to_iso p.created_at)).length

/-- Arguments of one `insert_participant` attempt. -/
structure InsArgs where
  telegram_id : Int
  phone : String
  first_name : String
  last_name : String
  consent : Int
  created_at : String
deriving DecidableEq, Repr

def insertArgs (s : Store) (a : InsArgs) : Except DupField (Nat × Store) :=
  insert_participant s a.telegram_id a.phone a.first_name a.last_name a.consent a.created_at

/-- Run a sequence of insert attempts (any serialization of concurrent
attempts); returns the final store and the assigned numbers of the
successful attempts, in order. -/
def runInserts (s : Store) : List InsArgs → Store × List Nat
  | [] => (s, [])
  | a :: rest =>
    match insertArgs s a with
    | .ok (pid, s') =>
      let (sf, ids) := runInserts s' rest
      (sf, pid :: ids)
    | .error _ => runInserts s rest

/-- The two UNIQUE constraints of `CREATE_TABLE_SQL`, as a store invariant. -/
def Store.Uniq (s : Store) : Prop :=
  s.rows.Pairwise (fun p q => p.telegram_id ≠ q.telegram_id ∧ p.phone ≠ q.phone)

/-- Structural well-formedness: rows are in `id`-ascending order and every
assigned `id` is at most the sequence counter (AUTOINCREMENT never reuses). -/
def Store.WF (s : Store) : Prop :=
  s.rows.Pairwise (fun p q => p.id < q.id) ∧ ∀ r ∈ s.rows, r.id ≤ s.seq

-- ---------- Dates (datetime.date / datetime.datetime as used by main.py) ----------

/-- `datetime.date`: `year` is 1..9999 in Python. -/
structure Date where
  year : Nat
  month : Nat
  day : Nat
deriving DecidableEq, Repr

def isLeap (y : Nat) : Bool :=
  y % 4 = 0 && (y % 100 ≠ 0 || y % 400 = 0)

def daysInMonth (y m : Nat) : Nat :=
  if m = 2 then (if isLeap y then 29 else 28)
  else if m = 4 || m = 6 || m = 9 || m = 11 then 30
  else 31

/-- A calendar date Python's `datetime` would accept. -/
def Date.valid (d : Date) : Bool :=
  1 ≤ d.year && d.year ≤ 9999 && 1 ≤ d.month && d.month ≤ 12 &&
  1 ≤ d.day && d.day ≤ daysInMonth d.year d.month

/-- `d + timedelta(days=1)`; `none` models the `OverflowError` Python raises
past `date.max = 9999-12-31`. -/
def date_add_one_day (d : Date) : Option Date :=
  if d.day < daysInMonth d.year d.month then some ⟨d.year, d.month, d.day + 1⟩
  else if d.month < 12 then some ⟨d.year, d.month + 1, 1⟩
  else if d.year < 9999 then some ⟨d.year + 1, 1, 1⟩
  else none

def digitChar : Nat → Char
  | 0 => '0'
  | 1 => '1'
  | 2 => '2'
  | 3 => '3'
  | 4 => '4'
  | 5 => '5'
  | 6 => '6'
  | 7 => '7'
  | 8 => '8'
  | _ => '9'

/-- The ten characters of `date(y,m,d).isoformat()`: `YYYY-MM-DD`
(years are 1..9999, so `%04d` padding). -/
def dateIsoChars (d : Date) : List Char :=
  [digitChar (d.year / 1000), digitChar (d.year / 100 % 10),
   digitChar (d.year / 10 % 10), digitChar (d.year % 10), '-',
   digitChar (d.month / 10), digitChar (d.month % 10), '-',
   digitChar (d.day / 10), digitChar (d.day % 10)]

/-- `date(y,m,d).isoformat()`. -/
def dateIso (d : Date) : String := String.mk (dateIsoChars d)

/-- `datetime(y,m,d).isoformat()` = the date at midnight, `YYYY-MM-DDT00:00:00`. -/
def dtIsoMidnight (d : Date) : String := String.mk (dateIsoChars d ++ ('T' :: "00:00:00".data))

def isDigitChar (c : Char) : Bool := 48 ≤ c.toNat && c.toNat ≤ 57

def natOfDigits (l : List Char) : Nat :=
  l.foldl (fun a c => 10 * a + (c.toNat - 48)) 0

/-- Split a character list at every `'-'` (Python `s.split("-")`). -/
def splitDashAux : List Char → List Char → List (List Char)
  | [], acc => [acc.reverse]
  | c :: cs, acc =>
    if c = '-' then acc.reverse :: splitDashAux cs []
    else splitDashAux cs (c :: acc)

/-- `parse_ymd` (src/main.py:217): `datetime.strptime(s.strip(), "%Y-%m-%d")`,
`None` on failure.  `%Y` matches exactly four digits, `%m`/`%d` match one or
two digits with values 1..12 / 1..31, the whole string must be consumed, and
`datetime` then validates the calendar date (year ≥ 1, day ≤ month length). -/
def parse_ymd (s : String) : Option Date :=
  match splitDashAux (pyStrip s).data [] with
  | [ys, ms, ds] =>
    if ys.length = 4 && ys.all isDigitChar &&
       1 ≤ ms.length && ms.length ≤ 2 && ms.all isDigitChar &&
       1 ≤ ds.length && ds.length ≤ 2 && ds.all isDigitChar then
      let y := natOfDigits ys
      let m := natOfDigits ms
      let d := natOfDigits ds
      if 1 ≤ y && 1 ≤ m && m ≤ 12 && 1 ≤ d && d ≤ 31 && d ≤ daysInMonth y m then
        some ⟨y, m, d⟩
      else none
    else none
  | _ => none

/-- `day_range_utc` (src/main.py:224); `none` models the `OverflowError` on
`date.max`. -/
def day_range_utc (d : Date) : Option (String × String) :=
  match date_add_one_day d with
  | some e => some (dtIsoMidnight d, dtIsoMidnight e)
  | none => none

def errBadDateFormat : String := "Неверный формат даты. Используй YYYY-MM-DD YYYY-MM-DD"

def errBadArgs : String := "Неверные аргументы. Примеры: /export today или /export 2026-02-01 2026-02-06"

/-- `range_from_args` (src/main.py:230).  `today` is the impure
`datetime.utcnow().date()` input; the outer `none` models an uncaught
`OverflowError` from `+ timedelta(days=1)`. -/
def range_from_args (today : Date) (args_text : String) :
    Option (Option String × Option String × Option String) :=
  let t := pyStrip args_text
  if t = "" then some (none, none, none)
  else if pyLower t = "today" then
    match day_range_utc today with
    | some (f, to_) => some (some f, some to_, none)
    | none => none
  else
    match pySplit t with
    | [p1, p2] =>
      match parse_ymd p1, parse_ymd p2 with
      | some d1, some d2 =>
        match date_add_one_day d2 with
        | some e2 => some (some (dtIsoMidnight d1), some (dtIsoMidnight e2), none)
        | none => none
      | _, _ => some (none, none, some errBadDateFormat)
    | _ => some (none, none, some errBadArgs)

-- ---------- Sessions, messages, replies ----------

/-- `ADMIN_IDS` (src/main.py:33). -/
def ADMIN_IDS : List Int := [922603146, 123456789]

/-- `is_admin` (src/main.py:209). -/
def is_admin (user_id : Int) : Bool := user_id ∈ ADMIN_IDS

/-- The aiogram FSM states: `None`, the `Reg` group, the `AdminFSM` group. -/
inductive FsmState where
  | none
  | regWaitingConsent
  | regWaitingPhone
  | regWaitingFirstName
  | regWaitingLastName
  | admResetWaitPassword
  | admResetConfirm
  | admExportWaitFrom
  | admExportWaitTo
  | admListWaitFrom
  | admListWaitTo
deriving DecidableEq, Repr

/-- The keys the handlers ever put into `FSMContext` data. -/
structure SessionData where
  consent : Option Int
  phone : Option String
  first_name : Option String
  list_step : Option String
  list_from : Option String
  export_step : Option String
  export_from : Option String
deriving DecidableEq, Repr

def emptyData : SessionData := ⟨none, none, none, none, none, none, none⟩

/-- Per-caller `FSMContext`: current state plus data dict. -/
structure Session where
  state : FsmState
  data : SessionData
deriving DecidableEq, Repr

/-- `state.clear()`: resets the state to `None` and empties the data. -/
def clearSession : Session := ⟨.none, emptyData⟩

def freshSession : Session := clearSession

/-- A Telegram contact payload: `phone_number` and the declared owner
`user_id` (absent or `0` is falsy in the Python truthiness tests). -/
structure Contact where
  phone_number : Option String
  user_id : Option Int
deriving DecidableEq, Repr

/-- An inbound message event. -/
structure Msg where
  from_user_id : Int
  text : Option String
  contact : Option Contact
deriving DecidableEq, Repr

/-- One outbound `message.answer`/`answer_document` call, by call site, with
the dynamic payload it interpolates. -/
inductive Reply where
  | pressStart
  | alreadyRegisteredStart (pid : Nat) (fn ln phone : String)
  | alreadyRegisteredButton (pid : Nat)
  | consentPrompt
  | myNumber (pid : Nat) (fn ln phone : String)
  | notRegistered
  | stepReset
  | consentDeclined
  | consentChoosePrompt
  | askPhone
  | sendPhonePrompt
  | sendOwnPhonePrompt
  | alreadyRegisteredPhone (pid : Nat)
  | phoneTaken (pid : Nat) (fn ln : String)
  | askFirstName
  | badFirstName
  | askLastName
  | badLastName
  | alreadyRegisteredFinal (pid : Nat)
  | phoneTakenFinal
  | alreadyRegisteredCommit (pid : Nat)
  | registerFailed
  | registered (pid : Nat)
  | adminOnly
  | adminMenu
  | menuClosed
  | chooseListFilter
  | chooseExportFilter
  | listText (label : String) (cnt : Nat) (preview : List (Nat × String × String × String))
  | exportEmpty
  | exportDoc (cnt : Nat) (suffix : String)
  | text (s : String)
  | askRangeFrom
  | askRangeTo
  | badFromDate
  | badToDate
  | notUnderstoodFilter
  | resetPasswordMissing
  | askResetPassword
  | wrongPassword
  | confirmReset
  | resetCancelled
  | chooseResetButton
  | resetDone
deriving DecidableEq, Repr

/-- Result of one handler invocation: new store, new session, the replies
sent, and whether an uncaught Python exception was raised (in which case
aiogram keeps whatever state was already set). -/
structure HOut where
  store : Store
  sess : Session
  replies : List Reply
  raised : Bool := false
deriving DecidableEq, Repr

-- ---------- List / Export core ----------

/-- `send_list` (src/main.py:305): replies only, never writes the store.
The second component records an uncaught exception. -/
def send_list (today : Date) (st : Store) (args : String) : List Reply × Bool :=
  match range_from_args today args with
  | none => ([], true)
  | some (_, _, some err) => ([.text err], false)
  | some (f, t, none) =>
    let cnt := count_participants st f t
    let rows := fetch_participants st f t
    let preview := rows.take 30
    let label :=
      if pyLower (pyStrip args) = "today" then "сегодня (UTC)"
      else if pyStrip args ≠ "" then "диапазон: " ++ pyStrip args ++ " (UTC)"
      else "все записи"
    ([.listText label cnt (preview.map (fun r => (r.id, r.first_name, r.last_name, r.phone)))], false)

/-- `send_export` (src/main.py:331). -/
def send_export (today : Date) (st : Store) (args : String) : List Reply × Bool :=
  match range_from_args today args with
  | none => ([], true)
  | some (_, _, some err) => ([.text err], false)
  | some (f, t, none) =>
    let rows := fetch_participants st f t
    if rows = [] then ([.exportEmpty], false)
    else
      let suffix :=
        if pyLower (pyStrip args) = "today" then "today_utc"
        else if pyStrip args ≠ "" then replaceSpaces '_' (pyStrip args)
        else "all"
      ([.exportDoc rows.length suffix], false)

-- ---------- Public flow handlers ----------

/-- `show_user_start` (src/main.py:352). -/
def show_user_start (st : Store) (_s : Session) : HOut :=
  ⟨st, clearSession, [.pressStart], false⟩

/-- `start` (src/main.py:360). -/
def start (st : Store) (s : Session) (m : Msg) : HOut :=
  match get_by_telegram_id st m.from_user_id with
  | some p => ⟨st, clearSession, [.alreadyRegisteredStart p.id p.first_name p.last_name p.phone], false⟩
  | none => show_user_start st s

/-- `on_user_start_button` (src/main.py:379). -/
def on_user_start_button (st : Store) (s : Session) (m : Msg) : HOut :=
  match get_by_telegram_id st m.from_user_id with
  | some p => ⟨st, clearSession, [.alreadyRegisteredButton p.id], false⟩
  | none => ⟨st, ⟨.regWaitingConsent, s.data⟩, [.consentPrompt], false⟩

/-- `cmd_my` (src/main.py:401); note the unregistered branch returns without
clearing the state. -/
def cmd_my (st : Store) (s : Session) (m : Msg) : HOut :=
  match get_by_telegram_id st m.from_user_id with
  | none => ⟨st, s, [.notRegistered], false⟩
  | some p => ⟨st, clearSession, [.myNumber p.id p.first_name p.last_name p.phone], false⟩

/-- `cmd_reset` (src/main.py:416). -/
def cmd_reset (st : Store) (_s : Session) (_m : Msg) : HOut :=
  ⟨st, clearSession, [.stepReset], false⟩

/-- `on_consent` (src/main.py:421). -/
def on_consent (st : Store) (s : Session) (m : Msg) : HOut :=
  let t := pyStrip (m.text.getD "")
  if t = "❌ Не согласен" then ⟨st, clearSession, [.consentDeclined], false⟩
  else if t ≠ "✅ Согласен" then ⟨st, s, [.consentChoosePrompt], false⟩
  else ⟨st, ⟨.regWaitingPhone, { s.data with consent := some 1 }⟩, [.askPhone], false⟩

/-- `on_phone` (src/main.py:445). -/
def on_phone (st : Store) (s : Session) (m : Msg) : HOut :=
  match m.contact with
  | none => ⟨st, s, [.sendPhonePrompt], false⟩
  | some c =>
    if (c.phone_number.getD "") = "" then ⟨st, s, [.sendPhonePrompt], false⟩
    else if (match c.user_id with
             | none => false
             | some v => v ≠ 0 && v ≠ m.from_user_id) then
      ⟨st, s, [.sendOwnPhonePrompt], false⟩
    else
      let phone := normalize_phone (c.phone_number.getD "")
      match get_by_telegram_id st m.from_user_id with
      | some p => ⟨st, clearSession, [.alreadyRegisteredPhone p.id], false⟩
      | none =>
        match get_by_phone st phone with
        | some q =>
          if q.telegram_id ≠ m.from_user_id then
            ⟨st, clearSession, [.phoneTaken q.id q.first_name q.last_name], false⟩
          else ⟨st, ⟨.regWaitingFirstName, { s.data with phone := some phone }⟩, [.askFirstName], false⟩
        | none => ⟨st, ⟨.regWaitingFirstName, { s.data with phone := some phone }⟩, [.askFirstName], false⟩

/-- `on_first_name` (src/main.py:487). -/
def on_first_name (st : Store) (s : Session) (m : Msg) : HOut :=
  let fn := pyStrip (m.text.getD "")
  if fn = "" || fn.length < 2 || fn.length > 50 then ⟨st, s, [.badFirstName], false⟩
  else ⟨st, ⟨.regWaitingLastName, { s.data with first_name := some fn }⟩, [.askLastName], false⟩

/-- The `try insert_participant ... except IntegrityError` commit step of
`on_last_name` (src/main.py:526-556). -/
def reg_commit (st : Store) (uid : Int) (phone first_name last_name : String)
    (consent : Int) (now : String) : HOut :=
  match insert_participant st uid phone first_name last_name consent now with
  | .ok (pid, st') => ⟨st', clearSession, [.registered pid], false⟩
  | .error _ =>
    match get_by_telegram_id st uid with
    | some p => ⟨st, clearSession, [.alreadyRegisteredCommit p.id], false⟩
    | none => ⟨st, clearSession, [.registerFailed], false⟩

/-- `on_last_name` (src/main.py:498); a missing `data["phone"]` or
`data["first_name"]` key is Python's `KeyError`, recorded in `raised`. -/
def on_last_name (now : String) (st : Store) (s : Session) (m : Msg) : HOut :=
  let ln := pyStrip (m.text.getD "")
  if ln = "" || ln.length < 2 || ln.length > 50 then ⟨st, s, [.badLastName], false⟩
  else
    match s.data.phone, s.data.first_name with
    | some phone, some fn =>
      let consent := s.data.consent.getD 0
      match get_by_telegram_id st m.from_user_id with
      | some p => ⟨st, clearSession, [.alreadyRegisteredFinal p.id], false⟩
      | none =>
        match get_by_phone st phone with
        | some q =>
          if q.telegram_id ≠ m.from_user_id then ⟨st, clearSession, [.phoneTakenFinal], false⟩
          else reg_commit st m.from_user_id phone fn ln consent now
        | none => reg_commit st m.from_user_id phone fn ln consent now
    | _, _ => ⟨st, s, [], true⟩

-- ---------- Admin handlers ----------

/-- `cmd_admin` (src/main.py:560). -/
def cmd_admin (st : Store) (s : Session) (m : Msg) : HOut :=
  if ¬ is_admin m.from_user_id then ⟨st, s, [.adminOnly], false⟩
  else ⟨st, clearSession, [.adminMenu], false⟩

/-- `admin_close_menu` (src/main.py:568). -/
def admin_close_menu (st : Store) (s : Session) (m : Msg) : HOut :=
  if ¬ is_admin m.from_user_id then ⟨st, s, [], false⟩
  else ⟨st, clearSession, [.menuClosed], false⟩

/-- `cmd_list` (src/main.py:576); has no `state` parameter, so the session is
untouched. -/
def cmd_list (today : Date) (st : Store) (s : Session) (m : Msg) : HOut :=
  if ¬ is_admin m.from_user_id then ⟨st, s, [.adminOnly], false⟩
  else
    let args := pyStrip (removeFirst ("/list") (m.text.getD ""))
    let (rs, raised) := send_list today st args
    ⟨st, s, rs, raised⟩

/-- `cmd_export` (src/main.py:584). -/
def cmd_export (today : Date) (st : Store) (s : Session) (m : Msg) : HOut :=
  if ¬ is_admin m.from_user_id then ⟨st, s, [.adminOnly], false⟩
  else
    let args := pyStrip (removeFirst ("/export") (m.text.getD ""))
    let (rs, raised) := send_export today st args
    ⟨st, s, rs, raised⟩

/-- `admin_menu_list` (src/main.py:593); non-admins get no reply at all. -/
def admin_menu_list (st : Store) (s : Session) (m : Msg) : HOut :=
  if ¬ is_admin m.from_user_id then ⟨st, s, [], false⟩
  else ⟨st, ⟨.admListWaitFrom, s.data⟩, [.chooseListFilter], false⟩

/-- `admin_menu_export` (src/main.py:600). -/
def admin_menu_export (st : Store) (s : Session) (m : Msg) : HOut :=
  if ¬ is_admin m.from_user_id then ⟨st, s, [], false⟩
  else ⟨st, ⟨.admExportWaitFrom, s.data⟩, [.chooseExportFilter], false⟩

/-- `admin_menu_export_today` (src/main.py:607). -/
def admin_menu_export_today (today : Date) (st : Store) (s : Session) (m : Msg) : HOut :=
  if ¬ is_admin m.from_user_id then ⟨st, s, [], false⟩
  else
    let (rs, raised) := send_export today st ("today")
    if raised then ⟨st, clearSession, rs, true⟩
    else ⟨st, clearSession, rs ++ [.adminMenu], false⟩

/-- `admin_list_filter_step` (src/main.py:615). -/
def admin_list_filter_step (today : Date) (st : Store) (s : Session) (m : Msg) : HOut :=
  if ¬ is_admin m.from_user_id then ⟨st, s, [], false⟩
  else
    let t := pyStrip (m.text.getD "")
    if t = "⬅️ Назад" then ⟨st, clearSession, [.adminMenu], false⟩
    else if t = "Все" then
      let (rs, raised) := send_list today st ""
      if raised then ⟨st, clearSession, rs, true⟩
      else ⟨st, clearSession, rs ++ [.adminMenu], false⟩
    else if t = "Сегодня" then
      let (rs, raised) := send_list today st ("today")
      if raised then ⟨st, clearSession, rs, true⟩
      else ⟨st, clearSession, rs ++ [.adminMenu], false⟩
    else if t = "Диапазон дат" then
      ⟨st, ⟨.admListWaitTo, { s.data with list_step := some ("from") }⟩, [.askRangeFrom], false⟩
    else
      match range_from_args today t with
      | none => ⟨st, s, [], true⟩
      | some (_, _, some _) => ⟨st, s, [.notUnderstoodFilter], false⟩
      | some (_, _, none) =>
        let (rs, raised) := send_list today st t
        if raised then ⟨st, clearSession, rs, true⟩
        else ⟨st, clearSession, rs ++ [.adminMenu], false⟩

/-- `admin_list_range_collect` (src/main.py:654); `data["list_from"]` can
raise `KeyError`, and a `None` from the inner `parse_ymd` makes
`d1.isoformat()` raise `AttributeError`. -/
def admin_list_range_collect (today : Date) (st : Store) (s : Session) (m : Msg) : HOut :=
  if ¬ is_admin m.from_user_id then ⟨st, s, [], false⟩
  else
    let t := pyStrip (m.text.getD "")
    if t = "⬅️ Назад" then ⟨st, clearSession, [.adminMenu], false⟩
    else if s.data.list_step = some ("from") then
      match parse_ymd t with
      | none => ⟨st, s, [.badFromDate], false⟩
      | some d1 =>
        ⟨st, ⟨s.state, { s.data with list_from := some (dateIso d1), list_step := some ("to") }⟩,
          [.askRangeTo], false⟩
    else
      match parse_ymd t with
      | none => ⟨st, s, [.badToDate], false⟩
      | some d2 =>
        match s.data.list_from with
        | none => ⟨st, s, [], true⟩
        | some lf =>
          match parse_ymd lf with
          | none => ⟨st, s, [], true⟩
          | some d1 =>
            let args := dateIso d1 ++ " " ++ dateIso d2
            let (rs, raised) := send_list today st args
            if raised then ⟨st, clearSession, rs, true⟩
            else ⟨st, clearSession, rs ++ [.adminMenu], false⟩

/-- `admin_export_filter_step` (src/main.py:688). -/
def admin_export_filter_step (today : Date) (st : Store) (s : Session) (m : Msg) : HOut :=
  if ¬ is_admin m.from_user_id then ⟨st, s, [], false⟩
  else
    let t := pyStrip (m.text.getD "")
    if t = "⬅️ Назад" then ⟨st, clearSession, [.adminMenu], false⟩
    else if t = "Все" then
      let (rs, raised) := send_export today st ""
      if raised then ⟨st, clearSession, rs, true⟩
      else ⟨st, clearSession, rs ++ [.adminMenu], false⟩
    else if t = "Сегодня" then
      let (rs, raised) := send_export today st ("today")
      if raised then ⟨st, clearSession, rs, true⟩
      else ⟨st, clearSession, rs ++ [.adminMenu], false⟩
    else if t = "Диапазон дат" then
      ⟨st, ⟨.admExportWaitTo, { s.data with export_step := some ("from") }⟩, [.askRangeFrom], false⟩
    else
      match range_from_args today t with
      | none => ⟨st, s, [], true⟩
      | some (_, _, some _) => ⟨st, s, [.notUnderstoodFilter], false⟩
      | some (_, _, none) =>
        let (rs, raised) := send_export today st t
        if raised then ⟨st, clearSession, rs, true⟩
        else ⟨st, clearSession, rs ++ [.adminMenu], false⟩

/-- `admin_export_range_collect` (src/main.py:727). -/
def admin_export_range_collect (today : Date) (st : Store) (s : Session) (m : Msg) : HOut :=
  if ¬ is_admin m.from_user_id then ⟨st, s, [], false⟩
  else
    let t := pyStrip (m.text.getD "")
    if t = "⬅️ Назад" then ⟨st, clearSession, [.adminMenu], false⟩
    else if s.data.export_step = some ("from") then
      match parse_ymd t with
      | none => ⟨st, s, [.badFromDate], false⟩
      | some d1 =>
        ⟨st, ⟨s.state, { s.data with export_from := some (dateIso d1), export_step := some ("to") }⟩,
          [.askRangeTo], false⟩
    else
      match parse_ymd t with
      | none => ⟨st, s, [.badToDate], false⟩
      | some d2 =>
        match s.data.export_from with
        | none => ⟨st, s, [], true⟩
        | some ef =>
          match parse_ymd ef with
          | none => ⟨st, s, [], true⟩
          | some d1 =>
            let args := dateIso d1 ++ " " ++ dateIso d2
            let (rs, raised) := send_export today st args
            if raised then ⟨st, clearSession, rs, true⟩
            else ⟨st, clearSession, rs ++ [.adminMenu], false⟩

/-- `admin_menu_reset` (src/main.py:762); `pw` is the configured
`RESET_PASSWORD` (the empty string means "not set": Python falsiness). -/
def admin_menu_reset (pw : String) (st : Store) (s : Session) (m : Msg) : HOut :=
  if ¬ is_admin m.from_user_id then ⟨st, s, [], false⟩
  else if pw = "" then ⟨st, clearSession, [.resetPasswordMissing], false⟩
  else ⟨st, ⟨.admResetWaitPassword, s.data⟩, [.askResetPassword], false⟩

/-- `admin_reset_password_step` (src/main.py:779). -/
def admin_reset_password_step (pw : String) (st : Store) (s : Session) (m : Msg) : HOut :=
  if ¬ is_admin m.from_user_id then ⟨st, s, [], false⟩
  else
    let t := pyStrip (m.text.getD "")
    if t = "⬅️ Назад" then ⟨st, clearSession, [.adminMenu], false⟩
    else if t ≠ pw then ⟨st, s, [.wrongPassword], false⟩
    else ⟨st, ⟨.admResetConfirm, s.data⟩, [.confirmReset], false⟩

/-- `admin_reset_confirm` (src/main.py:803): the only call site of
`reset_database`. -/
def admin_reset_confirm (st : Store) (s : Session) (m : Msg) : HOut :=
  if ¬ is_admin m.from_user_id then ⟨st, s, [], false⟩
  else
    let t := pyStrip (m.text.getD "")
    if t = "❌ Отмена" then ⟨st, clearSession, [.resetCancelled], false⟩
    else if t ≠ "✅ Да, стереть всё" then ⟨st, s, [.chooseResetButton], false⟩
    else ⟨reset_database st, clearSession, [.resetDone], false⟩

-- ---------- Dispatcher (handler registrations in main(), src/main.py:824) ----------

/-- The command name of a `/cmd[@bot] [args]` text, as aiogram's `Command`
filter extracts it. -/
def commandToken (t : String) : Option String :=
  match t.data with
  | '/' :: rest =>
    some (String.mk ((rest.takeWhile (fun c => c ≠ ' ')).takeWhile (fun c => c ≠ '@')))
  | _ => none

def commandMatch (cmd t : String) : Bool := commandToken t = some cmd

/-- One dispatch round: the registered handlers are tried in the order of
`main()`; the first whose filters match runs.  `pw` is `RESET_PASSWORD`,
`today` is `datetime.utcnow().date()`, `now` is `datetime.utcnow().isoformat()`. -/
def dispatch (pw : String) (today : Date) (now : String) (st : Store) (s : Session) (m : Msg) : HOut :=
  if commandMatch ("start") (m.text.getD "") then start st s m
  else if m.text.getD "" = "🚀 Старт" then on_user_start_button st s m
  else if commandMatch ("my") (m.text.getD "") then cmd_my st s m
  else if commandMatch ("reset") (m.text.getD "") then cmd_reset st s m
  else if commandMatch ("admin") (m.text.getD "") then cmd_admin st s m
  else if commandMatch ("list") (m.text.getD "") then cmd_list today st s m
  else if commandMatch ("export") (m.text.getD "") then cmd_export today st s m
  else if is_admin m.from_user_id && m.text.getD "" = "⬅️ Закрыть меню" then admin_close_menu st s m
  else if is_admin m.from_user_id && m.text.getD "" = "📋 Список" then admin_menu_list st s m
  else if is_admin m.from_user_id && m.text.getD "" = "📤 Экспорт" then admin_menu_export st s m
  else if is_admin m.from_user_id && m.text.getD "" = "📤 Экспорт сегодня" then admin_menu_export_today today st s m
  else if is_admin m.from_user_id && m.text.getD "" = "🧹 Ресет базы" then admin_menu_reset pw st s m
  else
    match s.state with
    | .admResetWaitPassword => admin_reset_password_step pw st s m
    | .admResetConfirm => admin_reset_confirm st s m
    | .admListWaitFrom => admin_list_filter_step today st s m
    | .admListWaitTo => admin_list_range_collect today st s m
    | .admExportWaitFrom => admin_export_filter_step today st s m
    | .admExportWaitTo => admin_export_range_collect today st s m
    | .regWaitingConsent => on_consent st s m
    | .regWaitingPhone => on_phone st s m
    | .regWaitingFirstName => on_first_name st s m
    | .regWaitingLastName => on_last_name now st s m
    | .none => ⟨st, s, [], false⟩

/-- Run a sequence of events from one caller through the dispatcher. -/
def runMsgs (pw : String) (today : Date) (now : String) :
    Store × Session → List Msg → Store × Session
  | p, [] => p
  | (st, s), m :: rest =>
    let o := dispatch pw today now st s m
    runMsgs pw today now (o.store, o.sess) rest

/-- All rows ever persisted carry consent flag 1. -/
def storeConsentOk (st : Store) : Prop := ∀ r ∈ st.rows, r.consent = 1

/-- In the phone/name collection states the session's consent field is 1
(set by `on_consent` before `Reg.waiting_phone` is entered). -/
def sessConsentOk (s : Session) : Prop :=
  (s.state = .regWaitingPhone ∨ s.state = .regWaitingFirstName ∨
    s.state = .regWaitingLastName) → s.data.consent = some 1

/-- Event `i` of the trace has stripped text `v`. -/
def textAt (msgs : List Msg) (i : Nat) (v : String) : Prop :=
  ∃ m, msgs[i]? = some m ∧ pyStrip (m.text.getD "") = v

/-- The possible session outcomes of one dispatch round, given the inbound
session `s` and message `m` (conditions record the dispatch state that makes
an outcome reachable). -/
def DispatchSessCases (pw : String) (s : Session) (m : Msg) (out : Session) : Prop :=
  out = s ∨
  out = clearSession ∨
  out = ⟨.regWaitingConsent, s.data⟩ ∨
  out = ⟨.regWaitingPhone, { s.data with consent := some 1 }⟩ ∨
  (s.state = .regWaitingPhone ∧
    ∃ ph, out = ⟨.regWaitingFirstName, { s.data with phone := some ph }⟩) ∨
  (s.state = .regWaitingFirstName ∧
    ∃ fn, out = ⟨.regWaitingLastName, { s.data with first_name := some fn }⟩) ∨
  out = ⟨.admListWaitFrom, s.data⟩ ∨
  out = ⟨.admExportWaitFrom, s.data⟩ ∨
  out = ⟨.admListWaitTo, { s.data with list_step := some ("from") }⟩ ∨
  out = ⟨.admExportWaitTo, { s.data with export_step := some ("from") }⟩ ∨
  (s.state = .admListWaitTo ∧
    ∃ d, out = ⟨s.state, { s.data with list_from := some d, list_step := some ("to") }⟩) ∨
  (s.state = .admExportWaitTo ∧
    ∃ d, out = ⟨s.state, { s.data with export_from := some d, export_step := some ("to") }⟩) ∨
  (pw ≠ "" ∧ out = ⟨.admResetWaitPassword, s.data⟩) ∨
  (s.state = .admResetWaitPassword ∧ pyStrip (m.text.getD "") = pw ∧
    out = ⟨.admResetConfirm, s.data⟩)

/-- Strict chronological order on dates (year, then month, then day). -/
def dateLtP (d1 d2 : Date) : Prop :=
  d1.year < d2.year ∨ (d1.year = d2.year ∧
    (d1.month < d2.month ∨ (d1.month = d2.month ∧ d1.day < d2.day)))

/-- The first eight characters are a `HH:MM:SS` time, as produced by
`datetime.utcnow().isoformat()` (possibly followed by `.ffffff`). -/
def validTimeChars : List Char → Bool
  | h1 :: h2 :: c1 :: m1 :: m2 :: c2 :: s1 :: s2 :: _ =>
    isDigitChar h1 && isDigitChar h2 && c1 = ':' && isDigitChar m1 && isDigitChar m2 &&
      c2 = ':' && isDigitChar s1 && isDigitChar s2
  | _ => false

/-- `created_at` is well-formed: `date.isoformat() ++ "T" ++ time`, the shape
`datetime.utcnow().isoformat()` always produces. -/
def wfCreated (c : String) : Prop :=
  ∃ (d : Date) (t : List Char), d.valid = true ∧ validTimeChars t = true ∧
    c.data = dateIsoChars d ++ ('T' :: t)

-- ---------- Theorems ----------

theorem charListLt_append_same (xs : List Char) :
    ∀ u v, charListLt (xs ++ u) (xs ++ v) = charListLt u v := by
  induction xs with
  | nil => intro u v; rfl
  | cons a as ih =>
    intro u v
    simp only [List.cons_append, charListLt, Nat.lt_irrefl, if_false]
    exact ih u v

theorem charListLe_append_same (xs : List Char) :
    ∀ u v, charListLe (xs ++ u) (xs ++ v) = charListLe u v := by
  induction xs with
  | nil => intro u v; rfl
  | cons a as ih =>
    intro u v
    simp only [List.cons_append, charListLe, Nat.lt_irrefl, if_false]
    exact ih u v

theorem charListLt_irrefl (l : List Char) : charListLt l l = false := by
  induction l with
  | nil => rfl
  | cons a as ih =>
    simp only [charListLt, Nat.lt_irrefl, if_false]
    exact ih

theorem charListLt_extend : ∀ (as bs u v : List Char), as.length = bs.length →
    charListLt as bs = true → charListLt (as ++ u) (bs ++ v) = true := by
  intro as
  induction as with
  | nil =>
    intro bs u v hlen h
    cases bs with
    | nil => simp [charListLt] at h
    | cons b bs' => simp at hlen
  | cons a as' ih =>
    intro bs u v hlen h
    cases bs with
    | nil => simp at hlen
    | cons b bs' =>
      simp only [List.length_cons, Nat.succ.injEq] at hlen
      simp only [charListLt] at h
      simp only [List.cons_append, charListLt]
      split at h
      · simp_all
      · split at h
        · simp_all
        · simp_all

theorem charListLe_extend_false : ∀ (as bs u v : List Char), as.length = bs.length →
    charListLt as bs = true → charListLe (bs ++ v) (as ++ u) = false := by
  intro as
  induction as with
  | nil =>
    intro bs u v hlen h
    cases bs with
    | nil => simp [charListLt] at h
    | cons b bs' => simp at hlen
  | cons a as' ih =>
    intro bs u v hlen h
    cases bs with
    | nil => simp at hlen
    | cons b bs' =>
      simp only [List.length_cons, Nat.succ.injEq] at hlen
      simp only [charListLt] at h
      simp only [List.cons_append, charListLe]
      split at h
      next hab =>
        rw [if_neg (by omega), if_pos hab]
      · split at h
        · simp_all
        next hab hba =>
          rw [if_neg hba, if_neg hab]
          exact ih bs' u v hlen h

theorem charListLt_extend_false : ∀ (as bs u v : List Char), as.length = bs.length →
    charListLt as bs = true → charListLt (bs ++ v) (as ++ u) = false := by
  intro as
  induction as with
  | nil =>
    intro bs u v hlen h
    cases bs with
    | nil => simp [charListLt] at h
    | cons b bs' => simp at hlen
  | cons a as' ih =>
    intro bs u v hlen h
    cases bs with
    | nil => simp at hlen
    | cons b bs' =>
      simp only [List.length_cons, Nat.succ.injEq] at hlen
      simp only [charListLt] at h
      simp only [List.cons_append, charListLt]
      split at h
      next hab =>
        rw [if_neg (by omega), if_pos hab]
      · split at h
        · simp_all
        next hab hba =>
          rw [if_neg hba, if_neg hab]
          exact ih bs' u v hlen h

theorem dc_toNat (a : Nat) (h : a ≤ 9) : (digitChar a).toNat = 48 + a := by
  interval_cases a <;> rfl

theorem valid_iff (d : Date) : d.valid = true ↔
    1 ≤ d.year ∧ d.year ≤ 9999 ∧ 1 ≤ d.month ∧ d.month ≤ 12 ∧
    1 ≤ d.day ∧ d.day ≤ daysInMonth d.year d.month := by
  unfold Date.valid
  simp [Bool.and_eq_true, decide_eq_true_eq, and_assoc]

theorem daysInMonth_le (y m : Nat) : daysInMonth y m ≤ 31 := by
  unfold daysInMonth
  split_ifs <;> omega

theorem daysInMonth_pos (y m : Nat) : 1 ≤ daysInMonth y m := by
  unfold daysInMonth
  split_ifs <;> omega

theorem date_add_one_valid (D D' : Date) (h : D.valid = true)
    (hs : date_add_one_day D = some D') : D'.valid = true := by
  rw [valid_iff] at h ⊢
  unfold date_add_one_day at hs
  split_ifs at hs with h1 h2 h3
  · obtain rfl := Option.some.inj hs
    dsimp only
    omega
  · obtain rfl := Option.some.inj hs
    dsimp only
    have := daysInMonth_pos D.year (D.month + 1)
    omega
  · obtain rfl := Option.some.inj hs
    dsimp only
    have := daysInMonth_pos (D.year + 1) 1
    omega

theorem dateLtP_cases (d D : Date) (h : d ≠ D) : dateLtP d D ∨ dateLtP D d := by
  obtain ⟨dy, dm, dd⟩ := d
  obtain ⟨Dy, Dm, Dd⟩ := D
  unfold dateLtP
  dsimp only
  have h' : ¬(dy = Dy ∧ dm = Dm ∧ dd = Dd) := by
    intro ⟨a, b, c⟩
    exact h (by rw [a, b, c])
  omega

theorem date_lt_succ (D D' : Date) (hs : date_add_one_day D = some D') : dateLtP D D' := by
  unfold date_add_one_day at hs
  split_ifs at hs with h1 h2 h3
  all_goals obtain rfl := Option.some.inj hs
  all_goals unfold dateLtP
  all_goals dsimp only
  all_goals omega

theorem date_succ_ge (d D D' : Date) (hd : d.valid = true) (hD : D.valid = true)
    (hs : date_add_one_day D = some D') (h1 : ¬ dateLtP d D) (h2 : d ≠ D) :
    d = D' ∨ dateLtP D' d := by
  rw [valid_iff] at hd hD
  obtain ⟨dy, dm, dd⟩ := d
  obtain ⟨Dy, Dm, Dd⟩ := D
  dsimp only at hd hD
  have h2' : ¬(dy = Dy ∧ dm = Dm ∧ dd = Dd) := by
    intro ⟨a, b, c⟩
    exact h2 (by rw [a, b, c])
  unfold dateLtP at h1
  dsimp only at h1
  unfold date_add_one_day at hs
  dsimp only at hs
  split_ifs at hs with ha hb hc
  · obtain rfl := Option.some.inj hs
    unfold dateLtP
    simp only [Date.mk.injEq]
    omega
  · obtain rfl := Option.some.inj hs
    unfold dateLtP
    simp only [Date.mk.injEq]
    by_cases hy : dy = Dy
    · by_cases hm : dm = Dm
      · subst hy; subst hm
        omega
      · omega
    · omega
  · obtain rfl := Option.some.inj hs
    unfold dateLtP
    simp only [Date.mk.injEq]
    by_cases hy : dy = Dy
    · by_cases hm : dm = Dm
      · subst hy; subst hm
        have h31 : daysInMonth dy dm = 31 := by
          have : dm = 12 := by omega
          subst this
          rfl
        omega
      · omega
    · omega

theorem dateLtP_asymm (d1 d2 : Date) (h : dateLtP d1 d2) : ¬ dateLtP d2 d1 := by
  obtain ⟨a, b, c⟩ := d1
  obtain ⟨x, y, z⟩ := d2
  unfold dateLtP at h ⊢
  dsimp only at h ⊢
  omega

theorem two_digit_lt (m n : Nat) (hm : m ≤ 99) (hn : n ≤ 99) (h : m < n) (u v : List Char) :
    charListLt (digitChar (m / 10) :: digitChar (m % 10) :: u)
      (digitChar (n / 10) :: digitChar (n % 10) :: v) = true := by
  have e1 := dc_toNat (m / 10) (by omega)
  have e2 := dc_toNat (m % 10) (by omega)
  have f1 := dc_toNat (n / 10) (by omega)
  have f2 := dc_toNat (n % 10) (by omega)
  simp only [charListLt, e1, e2, f1, f2]
  split_ifs <;> first | rfl | (exfalso; omega)

theorem four_digit_lt (m n : Nat) (hm : m ≤ 9999) (hn : n ≤ 9999) (h : m < n)
    (u v : List Char) :
    charListLt
      (digitChar (m / 1000) :: digitChar (m / 100 % 10) :: digitChar (m / 10 % 10) ::
        digitChar (m % 10) :: u)
      (digitChar (n / 1000) :: digitChar (n / 100 % 10) :: digitChar (n / 10 % 10) ::
        digitChar (n % 10) :: v) = true := by
  have e1 := dc_toNat (m / 1000) (by omega)
  have e2 := dc_toNat (m / 100 % 10) (by omega)
  have e3 := dc_toNat (m / 10 % 10) (by omega)
  have e4 := dc_toNat (m % 10) (by omega)
  have f1 := dc_toNat (n / 1000) (by omega)
  have f2 := dc_toNat (n / 100 % 10) (by omega)
  have f3 := dc_toNat (n / 10 % 10) (by omega)
  have f4 := dc_toNat (n % 10) (by omega)
  simp only [charListLt, e1, e2, e3, e4, f1, f2, f3, f4]
  split_ifs <;> first | rfl | (exfalso; omega)

theorem dateIso_mono (d1 d2 : Date) (h1 : d1.valid = true) (h2 : d2.valid = true)
    (hlt : dateLtP d1 d2) :
    charListLt (dateIsoChars d1) (dateIsoChars d2) = true := by
  rw [valid_iff] at h1 h2
  have hb1 := daysInMonth_le d1.year d1.month
  have hb2 := daysInMonth_le d2.year d2.month
  obtain ⟨a, b, c⟩ := d1
  obtain ⟨x, y, z⟩ := d2
  dsimp only at h1 h2 hb1 hb2
  unfold dateLtP at hlt
  dsimp only at hlt
  unfold dateIsoChars
  dsimp only
  rcases hlt with hy | ⟨hy, hm | ⟨hm, hd⟩⟩
  · exact four_digit_lt a x (by omega) (by omega) hy _ _
  · rw [hy]
    show charListLt
      ([digitChar (x / 1000), digitChar (x / 100 % 10), digitChar (x / 10 % 10),
        digitChar (x % 10), '-'] ++
        (digitChar (b / 10) :: digitChar (b % 10) :: '-' :: digitChar (c / 10) ::
          digitChar (c % 10) :: []))
      ([digitChar (x / 1000), digitChar (x / 100 % 10), digitChar (x / 10 % 10),
        digitChar (x % 10), '-'] ++
        (digitChar (y / 10) :: digitChar (y % 10) :: '-' :: digitChar (z / 10) ::
          digitChar (z % 10) :: [])) = true
    rw [charListLt_append_same]
    exact two_digit_lt b y (by omega) (by omega) hm _ _
  · rw [hy, hm]
    show charListLt
      ([digitChar (x / 1000), digitChar (x / 100 % 10), digitChar (x / 10 % 10),
        digitChar (x % 10), '-', digitChar (y / 10), digitChar (y % 10), '-'] ++
        (digitChar (c / 10) :: digitChar (c % 10) :: []))
      ([digitChar (x / 1000), digitChar (x / 100 % 10), digitChar (x / 10 % 10),
        digitChar (x % 10), '-', digitChar (y / 10), digitChar (y % 10), '-'] ++
        (digitChar (z / 10) :: digitChar (z % 10) :: [])) = true
    rw [charListLt_append_same]
    exact two_digit_lt c z (by omega) (by omega) hd _ _

theorem isPrefixOf_self_append : ∀ (p t : List Char), p.isPrefixOf (p ++ t) = true := by
  intro p
  induction p with
  | nil => intro t; simp
  | cons a as ih =>
    intro t
    simp only [List.cons_append, List.isPrefixOf, beq_self_eq_true, Bool.true_and]
    exact ih t

theorem eq_of_isPrefixOf_append : ∀ (p q u v : List Char), p.length = q.length →
    (p ++ u).isPrefixOf (q ++ v) = true → p = q := by
  intro p
  induction p with
  | nil =>
    intro q u v hlen _
    cases q with
    | nil => rfl
    | cons b bs => simp at hlen
  | cons a as ih =>
    intro q u v hlen h
    cases q with
    | nil => simp at hlen
    | cons b bs =>
      simp only [List.length_cons, Nat.succ.injEq] at hlen
      simp only [List.cons_append, List.isPrefixOf, Bool.and_eq_true, beq_iff_eq] at h
      rw [h.1, ih bs u v hlen h.2]

theorem charListLe_of_forall2 : ∀ (xs ys zs : List Char),
    List.Forall₂ (fun a b => a.toNat ≤ b.toNat) xs ys →
    charListLe xs (ys ++ zs) = true := by
  intro xs ys zs h
  induction h with
  | nil => rfl
  | cons hab htl ih =>
    simp only [List.cons_append, charListLe]
    split_ifs with g1 g2
    · rfl
    · omega
    · exact ih

theorem charListLt_false_of_forall2 : ∀ (xs ys zs : List Char),
    List.Forall₂ (fun a b => a.toNat ≤ b.toNat) xs ys →
    charListLt (ys ++ zs) xs = false := by
  intro xs ys zs h
  induction h with
  | nil =>
    cases zs <;> rfl
  | cons hab htl ih =>
    simp only [List.cons_append, charListLt]
    split_ifs with g1 g2
    · omega
    · rfl
    · exact ih

theorem le00_of_validTime (t : List Char) (h : validTimeChars t = true) :
    charListLe ("00:00:00").data t = true := by
  rcases t with _ | ⟨c1, _ | ⟨c2, _ | ⟨c3, _ | ⟨c4, _ | ⟨c5, _ | ⟨c6, _ | ⟨c7, _ | ⟨c8, rest⟩⟩⟩⟩⟩⟩⟩⟩ <;>
    try exact absurd h Bool.false_ne_true
  simp only [validTimeChars, Bool.and_eq_true, decide_eq_true_eq] at h
  obtain ⟨⟨⟨⟨⟨⟨⟨hc1, hc2⟩, hc3⟩, hc4⟩, hc5⟩, hc6⟩, hc7⟩, hc8⟩ := h
  subst hc3
  subst hc6
  unfold isDigitChar at hc1 hc2 hc4 hc5 hc7 hc8
  simp only [Bool.and_eq_true, decide_eq_true_eq] at hc1 hc2 hc4 hc5 hc7 hc8
  have h0 : ('0').toNat = 48 := rfl
  have hcl : (':').toNat = 58 := rfl
  have hz : ("00:00:00").data = ['0', '0', ':', '0', '0', ':', '0', '0'] := rfl
  rw [hz]
  exact charListLe_of_forall2 ['0', '0', ':', '0', '0', ':', '0', '0']
    [c1, c2, ':', c4, c5, ':', c7, c8] rest
    (.cons (by rw [h0]; omega) (.cons (by rw [h0]; omega) (.cons (by omega)
      (.cons (by rw [h0]; omega) (.cons (by rw [h0]; omega) (.cons (by omega)
        (.cons (by rw [h0]; omega) (.cons (by rw [h0]; omega) .nil))))))))

theorem not_lt00_of_validTime (t : List Char) (h : validTimeChars t = true) :
    charListLt t ("00:00:00").data = false := by
  rcases t with _ | ⟨c1, _ | ⟨c2, _ | ⟨c3, _ | ⟨c4, _ | ⟨c5, _ | ⟨c6, _ | ⟨c7, _ | ⟨c8, rest⟩⟩⟩⟩⟩⟩⟩⟩ <;>
    try exact absurd h Bool.false_ne_true
  simp only [validTimeChars, Bool.and_eq_true, decide_eq_true_eq] at h
  obtain ⟨⟨⟨⟨⟨⟨⟨hc1, hc2⟩, hc3⟩, hc4⟩, hc5⟩, hc6⟩, hc7⟩, hc8⟩ := h
  subst hc3
  subst hc6
  unfold isDigitChar at hc1 hc2 hc4 hc5 hc7 hc8
  simp only [Bool.and_eq_true, decide_eq_true_eq] at hc1 hc2 hc4 hc5 hc7 hc8
  have h0 : ('0').toNat = 48 := rfl
  have hz : ("00:00:00").data = ['0', '0', ':', '0', '0', ':', '0', '0'] := rfl
  rw [hz]
  exact charListLt_false_of_forall2 ['0', '0', ':', '0', '0', ':', '0', '0']
    [c1, c2, ':', c4, c5, ':', c7, c8] rest
    (.cons (by rw [h0]; omega) (.cons (by rw [h0]; omega) (.cons (by omega)
      (.cons (by rw [h0]; omega) (.cons (by rw [h0]; omega) (.cons (by omega)
        (.cons (by rw [h0]; omega) (.cons (by rw [h0]; omega) .nil))))))))

theorem charListLe_consT (u v : List Char) :
    charListLe ('T' :: u) ('T' :: v) = charListLe u v :=
  charListLe_append_same ['T'] u v

theorem charListLt_consT (u v : List Char) :
    charListLt ('T' :: u) ('T' :: v) = charListLt u v :=
  charListLt_append_same ['T'] u v

theorem dateIsoChars_len (d : Date) : (dateIsoChars d).length = 10 := rfl

/-- The half-open midnight-to-midnight window `[D 00:00, D+1 00:00)` selects
a well-formed timestamp exactly when its date component is `D`. -/
theorem inRange_day_eq (D D' d : Date) (t : List Char)
    (hD : D.valid = true) (hs : date_add_one_day D = some D')
    (hd : d.valid = true) (ht : validTimeChars t = true) :
    rowInRange (some (dtIsoMidnight D)) (some (dtIsoMidnight D'))
      (String.mk (dateIsoChars d ++ ('T' :: t))) =
    (dateIsoChars D ++ ['T']).isPrefixOf (dateIsoChars d ++ ('T' :: t)) := by
  have hD'v : D'.valid = true := date_add_one_valid D D' hD hs
  unfold rowInRange strLe strLt dtIsoMidnight
  dsimp only
  by_cases hdD : d = D
  · subst hdD
    have hr : (dateIsoChars d ++ ['T']).isPrefixOf (dateIsoChars d ++ ('T' :: t)) = true := by
      have ha : dateIsoChars d ++ ('T' :: t) = (dateIsoChars d ++ ['T']) ++ t := by
        simp
      rw [ha]
      exact isPrefixOf_self_append _ _
    rw [hr]
    have hle : charListLe (dateIsoChars d ++ ('T' :: ("00:00:00").data))
        (dateIsoChars d ++ ('T' :: t)) = true := by
      rw [charListLe_append_same, charListLe_consT]
      exact le00_of_validTime t ht
    have hlt : charListLt (dateIsoChars d ++ ('T' :: t))
        (dateIsoChars D' ++ ('T' :: ("00:00:00").data)) = true :=
      charListLt_extend _ _ _ _ (by rw [dateIsoChars_len, dateIsoChars_len])
        (dateIso_mono d D' hd hD'v (date_lt_succ d D' hs))
    rw [hle, hlt]
    rfl
  · have hr : (dateIsoChars D ++ ['T']).isPrefixOf (dateIsoChars d ++ ('T' :: t)) = false := by
      rw [Bool.eq_false_iff]
      intro htrue
      have heq := eq_of_isPrefixOf_append (dateIsoChars D) (dateIsoChars d) ['T'] ('T' :: t)
        (by rw [dateIsoChars_len, dateIsoChars_len]) htrue
      rcases dateLtP_cases d D hdD with hlt | hlt
      · have hm := dateIso_mono d D hd hD hlt
        rw [heq, charListLt_irrefl] at hm
        exact Bool.false_ne_true hm
      · have hm := dateIso_mono D d hD hd hlt
        rw [heq, charListLt_irrefl] at hm
        exact Bool.false_ne_true hm
    rw [hr]
    rcases dateLtP_cases d D hdD with hlt | hgt
    · have hle : charListLe (dateIsoChars D ++ ('T' :: ("00:00:00").data))
          (dateIsoChars d ++ ('T' :: t)) = false :=
        charListLe_extend_false _ _ _ _ (by rw [dateIsoChars_len, dateIsoChars_len])
          (dateIso_mono d D hd hD hlt)
      rw [hle, Bool.false_and]
    · have hnlt : ¬ dateLtP d D := dateLtP_asymm D d hgt
      rcases date_succ_ge d D D' hd hD hs hnlt hdD with rfl | hgt'
      · have hlt2 : charListLt (dateIsoChars d ++ ('T' :: t))
            (dateIsoChars d ++ ('T' :: ("00:00:00").data)) = false := by
          rw [charListLt_append_same, charListLt_consT]
          exact not_lt00_of_validTime t ht
        rw [hlt2, Bool.and_false]
      · have hlt2 : charListLt (dateIsoChars d ++ ('T' :: t))
            (dateIsoChars D' ++ ('T' :: ("00:00:00").data)) = false :=
          charListLt_extend_false _ _ _ _ (by rw [dateIsoChars_len, dateIsoChars_len])
            (dateIso_mono D' d hD'v hd hgt')
        rw [hlt2, Bool.and_false]

theorem insertArgs_ok_iff (s : Store) (a : InsArgs) (n : Nat) (s' : Store)
    (h : insertArgs s a = .ok (n, s')) :
    n = s.seq + 1 ∧
    s' = ⟨s.rows ++ [⟨s.seq + 1, a.telegram_id, a.phone, a.first_name, a.last_name,
            a.consent, a.created_at⟩], s.seq + 1⟩ ∧
    (∀ p ∈ s.rows, p.telegram_id ≠ a.telegram_id) ∧
    (∀ p ∈ s.rows, p.phone ≠ a.phone) := by
  unfold insertArgs insert_participant at h
  split at h
  · simp at h
  next h1 =>
    split at h
    · simp at h
    next h2 =>
      simp only [Except.ok.injEq, Prod.mk.injEq] at h
      simp only [List.any_eq_true, decide_eq_true_eq, not_exists, not_and] at h1 h2
      refine ⟨h.1.symm, h.2.symm, ?_, ?_⟩
      · intro p hp; exact h1 p hp
      · intro p hp; exact h2 p hp

theorem insertArgs_fails_of_phone (s : Store) (a : InsArgs) (q : Participant)
    (hq : q ∈ s.rows) (hph : q.phone = a.phone) :
    ∃ e, insertArgs s a = .error e := by
  unfold insertArgs insert_participant
  split
  · exact ⟨_, rfl⟩
  · split
    · exact ⟨_, rfl⟩
    next h2 =>
      exfalso
      exact h2 (List.any_eq_true.mpr ⟨q, hq, by simp [hph]⟩)

theorem insertArgs_fails_of_tid (s : Store) (a : InsArgs) (q : Participant)
    (hq : q ∈ s.rows) (ht : q.telegram_id = a.telegram_id) :
    ∃ e, insertArgs s a = .error e := by
  unfold insertArgs insert_participant
  split
  · exact ⟨_, rfl⟩
  next h1 =>
    exfalso
    exact h1 (List.any_eq_true.mpr ⟨q, hq, by simp [ht]⟩)

theorem runInserts_all_fail_phone (l : List InsArgs) :
    ∀ (s : Store) (ph : String), (∀ a ∈ l, a.phone = ph) →
    (∃ q ∈ s.rows, q.phone = ph) → runInserts s l = (s, []) := by
  induction l with
  | nil => intro s ph _ _; rfl
  | cons a rest ih =>
    intro s ph hl hq
    obtain ⟨q, hqmem, hqph⟩ := hq
    obtain ⟨e, he⟩ := insertArgs_fails_of_phone s a q hqmem
      (by rw [hqph, hl a (List.mem_cons_self a rest)])
    unfold runInserts
    rw [he]
    exact ih s ph (fun b hb => hl b (List.mem_cons_of_mem a hb)) ⟨q, hqmem, hqph⟩

theorem runInserts_all_fail_tid (l : List InsArgs) :
    ∀ (s : Store) (tid : Int), (∀ a ∈ l, a.telegram_id = tid) →
    (∃ q ∈ s.rows, q.telegram_id = tid) → runInserts s l = (s, []) := by
  induction l with
  | nil => intro s tid _ _; rfl
  | cons a rest ih =>
    intro s tid hl hq
    obtain ⟨q, hqmem, hqt⟩ := hq
    obtain ⟨e, he⟩ := insertArgs_fails_of_tid s a q hqmem
      (by rw [hqt, hl a (List.mem_cons_self a rest)])
    unfold runInserts
    rw [he]
    exact ih s tid (fun b hb => hl b (List.mem_cons_of_mem a hb)) ⟨q, hqmem, hqt⟩

theorem runInserts_ids (l : List InsArgs) :
    ∀ s : Store,
      (runInserts s l).2 = List.range' (s.seq + 1) (runInserts s l).2.length ∧
      (runInserts s l).1.seq = s.seq + (runInserts s l).2.length := by
  induction l with
  | nil => intro s; exact ⟨rfl, rfl⟩
  | cons a rest ih =>
    intro s
    unfold runInserts
    cases h : insertArgs s a with
    | error e => simpa using ih s
    | ok v =>
      obtain ⟨n, s'⟩ := v
      obtain ⟨hn, hs', _, _⟩ := insertArgs_ok_iff s a n s' h
      have hseq : s'.seq = s.seq + 1 := by rw [hs']
      obtain ⟨ih1, ih2⟩ := ih s'
      constructor
      · simp only [List.length_cons, List.range']
        rw [hn]
        congr 1
        rw [ih1, hseq, List.length_range']
      · simp only [List.length_cons]
        rw [ih2, hseq]
        omega

/-- **C1.** The storage layer itself guarantees uniqueness: the empty store
and a wiped store satisfy the uniqueness invariant, `insert_participant`
preserves it, under the invariant any two rows at distinct positions differ
in both `telegram_id` and `phone`, and for any serialization of insert
attempts that all share a phone (or all share a telegram identity) at most
one attempt succeeds. -/
theorem C1_storage_uniqueness :
    Store.Uniq emptyStore ∧
    (∀ s : Store, Store.Uniq (reset_database s)) ∧
    (∀ (s : Store) (a : InsArgs) (n : Nat) (s' : Store),
      Store.Uniq s → insertArgs s a = .ok (n, s') → Store.Uniq s') ∧
    (∀ s : Store, Store.Uniq s → ∀ i j : Fin s.rows.length, i ≠ j →
      (s.rows.get i).telegram_id ≠ (s.rows.get j).telegram_id ∧
      (s.rows.get i).phone ≠ (s.rows.get j).phone) ∧
    (∀ (s : Store) (ph : String) (l : List InsArgs),
      (∀ a ∈ l, a.phone = ph) → (runInserts s l).2.length ≤ 1) ∧
    (∀ (s : Store) (tid : Int) (l : List InsArgs),
      (∀ a ∈ l, a.telegram_id = tid) → (runInserts s l).2.length ≤ 1) := by
  refine ⟨List.Pairwise.nil, fun s => List.Pairwise.nil, ?_, ?_, ?_, ?_⟩
  · intro s a n s' hu h
    obtain ⟨_, hs', htid, hph⟩ := insertArgs_ok_iff s a n s' h
    rw [hs']
    unfold Store.Uniq at hu ⊢
    rw [List.pairwise_append]
    refine ⟨hu, List.pairwise_singleton _ _, ?_⟩
    intro p hp r hr
    rw [List.mem_singleton] at hr
    subst hr
    exact ⟨htid p hp, hph p hp⟩
  · intro s hu i j hij
    unfold Store.Uniq at hu
    rw [List.pairwise_iff_get] at hu
    rcases Nat.lt_or_ge i.val j.val with h | h
    · exact hu i j h
    · have hj : j.val < i.val := by
        rcases Nat.lt_or_ge j.val i.val with h' | h'
        · exact h'
        · exact absurd (Fin.ext (Nat.le_antisymm h' h)) hij
      obtain ⟨h1, h2⟩ := hu j i hj
      exact ⟨h1.symm, h2.symm⟩
  · intro s ph l hl
    induction l generalizing s with
    | nil => simp [runInserts]
    | cons a rest ih =>
      unfold runInserts
      cases h : insertArgs s a with
      | error e =>
        exact ih s (fun b hb => hl b (List.mem_cons_of_mem a hb))
      | ok v =>
        obtain ⟨n, s'⟩ := v
        obtain ⟨_, hs', _, _⟩ := insertArgs_ok_iff s a n s' h
        have hrest : runInserts s' rest = (s', []) := by
          apply runInserts_all_fail_phone rest s' ph
            (fun b hb => hl b (List.mem_cons_of_mem a hb))
          refine ⟨⟨s.seq + 1, a.telegram_id, a.phone, a.first_name, a.last_name,
            a.consent, a.created_at⟩, ?_, hl a (List.mem_cons_self a rest)⟩
          rw [hs']
          simp
        simp [hrest]
  · intro s tid l hl
    induction l generalizing s with
    | nil => simp [runInserts]
    | cons a rest ih =>
      unfold runInserts
      cases h : insertArgs s a with
      | error e =>
        exact ih s (fun b hb => hl b (List.mem_cons_of_mem a hb))
      | ok v =>
        obtain ⟨n, s'⟩ := v
        obtain ⟨_, hs', _, _⟩ := insertArgs_ok_iff s a n s' h
        have hrest : runInserts s' rest = (s', []) := by
          apply runInserts_all_fail_tid rest s' tid
            (fun b hb => hl b (List.mem_cons_of_mem a hb))
          refine ⟨⟨s.seq + 1, a.telegram_id, a.phone, a.first_name, a.last_name,
            a.consent, a.created_at⟩, ?_, hl a (List.mem_cons_self a rest)⟩
          rw [hs']
          simp
        simp [hrest]

/-- Witness for C1 at concrete inputs. -/
theorem C1_storage_uniqueness_witness :
    Store.Uniq ⟨[⟨1, 5, "+70", "a", "b", 1, "t"⟩], 1⟩ ∧
    (runInserts emptyStore
      [⟨5, "+70", "a", "b", 1, "t"⟩, ⟨6, "+70", "c", "d", 1, "u"⟩]).2.length ≤ 1 := by
  constructor
  · exact C1_storage_uniqueness.2.2.1 emptyStore ⟨5, "+70", "a", "b", 1, "t"⟩ 1
      ⟨[⟨1, 5, "+70", "a", "b", 1, "t"⟩], 1⟩ List.Pairwise.nil rfl
  · exact C1_storage_uniqueness.2.2.2.2.1 emptyStore "+70"
      [⟨5, "+70", "a", "b", 1, "t"⟩, ⟨6, "+70", "c", "d", 1, "u"⟩]
      (by intro a ha; fin_cases ha <;> rfl)

/-- **C2.** `reset_database` followed by any insert succeeds and assigns
participant number 1, and within a wipe-free epoch the numbers assigned by
the successful inserts of any attempt sequence are exactly the consecutive
block starting right after the current sequence value — strictly increasing
and gap-free. -/
theorem C2_sequential_numbering :
    (∀ (s : Store) (a : InsArgs), ∃ s' : Store, insertArgs (reset_database s) a = .ok (1, s')) ∧
    (∀ (s : Store) (l : List InsArgs),
      (runInserts s l).2 = List.range' (s.seq + 1) (runInserts s l).2.length) ∧
    (∀ (s : Store) (l : List InsArgs), (runInserts s l).2.Pairwise (· < ·)) := by
  refine ⟨?_, ?_, ?_⟩
  · intro s a
    exact ⟨_, rfl⟩
  · intro s l
    exact (runInserts_ids l s).1
  · intro s l
    rw [(runInserts_ids l s).1]
    exact List.pairwise_lt_range' _ _

/-- Witness for C2-style runs at concrete input (C2 itself has no
hypotheses; this instantiates it). -/
theorem C2_sequential_numbering_witness :
    (runInserts ⟨[], 4⟩
      [⟨5, "+70", "a", "b", 1, "t"⟩, ⟨6, "+71", "c", "d", 1, "u"⟩]).2 =
      List.range' 5 2 := by
  have h := C2_sequential_numbering.2.1 ⟨[], 4⟩
    [⟨5, "+70", "a", "b", 1, "t"⟩, ⟨6, "+71", "c", "d", 1, "u"⟩]
  simpa using h

/-- **C8 counterexample.** The claim says the persisted phone contains no
whitespace characters, but `normalize_phone` only strips the ends and removes
U+0020 spaces: a raw payload with an interior tab is persisted with the tab.
Running the full registration flow on contact `" +7\t999 "` stores phone
`"+7\t999"`, which contains a whitespace character. -/
theorem C8_counterexample :
    ((runMsgs ("pw") ⟨2026, 10, 12⟩ ("2026-10-12T10:00:00")
        (emptyStore, freshSession)
        [⟨5, some ("🚀 Старт"), none⟩,
         ⟨5, some ("✅ Согласен"), none⟩,
         ⟨5, none, some ⟨some (" +7\t999 "), some 5⟩⟩,
         ⟨5, some ("Ann"), none⟩,
         ⟨5, some ("Lee"), none⟩]).1.rows.map (fun r => r.phone)) = ["+7\t999"] ∧
    ("+7\t999").data.any isPySpace = true := by
  exact ⟨by decide, rfl⟩

/-- **C8 (amended).** The stored phone is `normalize_phone` of the raw
payload: ends stripped and every space (U+0020) removed — it never contains
a space character, though other interior whitespace (e.g. a tab) survives. -/
theorem C8_stored_phone_normalized :
    (∀ raw : String, (normalize_phone raw).data.all (fun c => c ≠ ' ') = true) ∧
    (∀ (st : Store) (s : Session) (m : Msg),
      (on_phone st s m).sess.data.phone = s.data.phone ∨
      (on_phone st s m).sess.data.phone = none ∨
      ∃ c, m.contact = some c ∧
        (on_phone st s m).sess.data.phone = some (normalize_phone (c.phone_number.getD ""))) := by
  constructor
  · intro raw
    rw [List.all_eq_true]
    intro c hc
    unfold normalize_phone at hc
    simp only [String.data] at hc
    have := List.of_mem_filter hc
    simpa using this
  · intro st s m
    unfold on_phone
    cases m.contact with
    | none => exact .inl rfl
    | some c =>
      simp only
      split
      · exact .inl rfl
      · split
        · exact .inl rfl
        · cases get_by_telegram_id st m.from_user_id with
          | some p => exact .inr (.inl rfl)
          | none =>
            cases hq : get_by_phone st (normalize_phone (c.phone_number.getD "")) with
            | some q =>
              simp only
              split
              · exact .inr (.inl rfl)
              · exact .inr (.inr ⟨c, rfl, rfl⟩)
            | none => exact .inr (.inr ⟨c, rfl, rfl⟩)

/-- Witness for C8 (amended) at a concrete raw payload. -/
theorem C8_stored_phone_normalized_witness :
    (normalize_phone (" +7 912 345 ")).data.all (fun c => c ≠ ' ') = true :=
  C8_stored_phone_normalized.1 (" +7 912 345 ")

/-- **C10.** A contact payload whose declared owner id is absent (`None`) or
`0` (both falsy in Python) is processed exactly as if it declared the
caller's own id; the own-number re-prompt happens precisely when the owner
id is present, non-zero and different from the caller. -/
theorem C10_contact_owner_truthiness :
    (∀ (st : Store) (s : Session) (uid : Int) (txt : Option String) (pn : Option String),
      on_phone st s ⟨uid, txt, some ⟨pn, none⟩⟩ = on_phone st s ⟨uid, txt, some ⟨pn, some uid⟩⟩) ∧
    (∀ (st : Store) (s : Session) (uid : Int) (txt : Option String) (pn : Option String),
      on_phone st s ⟨uid, txt, some ⟨pn, some 0⟩⟩ = on_phone st s ⟨uid, txt, some ⟨pn, some uid⟩⟩) ∧
    (∀ (st : Store) (s : Session) (uid : Int) (txt : Option String) (pn : String) (v : Int),
      pn ≠ "" → v ≠ 0 → v ≠ uid →
      on_phone st s ⟨uid, txt, some ⟨some pn, some v⟩⟩ = ⟨st, s, [.sendOwnPhonePrompt], false⟩) := by
  refine ⟨?_, ?_, ?_⟩
  · intro st s uid txt pn
    simp [on_phone]
  · intro st s uid txt pn
    simp [on_phone]
  · intro st s uid txt pn v hpn hv0 hvu
    simp [on_phone, hpn, hv0, hvu]

/-- Witness for C10 at concrete inputs. -/
theorem C10_contact_owner_truthiness_witness :
    on_phone emptyStore freshSession ⟨5, none, some ⟨some ("+1"), some 7⟩⟩ =
      ⟨emptyStore, freshSession, [.sendOwnPhonePrompt], false⟩ :=
  C10_contact_owner_truthiness.2.2 emptyStore freshSession 5 none ("+1") 7
    (by decide) (by decide) (by decide)

/-- **C9 counterexample.** The claim says every admin entry point sends
non-operators a fixed denial, but the menu-button handlers return silently:
`admin_menu_list` invoked by a non-admin sends no reply at all. -/
theorem C9_counterexample :
    (admin_menu_list emptyStore freshSession ⟨1, some ("📋 Список"), none⟩).replies = [] ∧
    (admin_menu_list emptyStore freshSession ⟨1, some ("📋 Список"), none⟩).replies ≠
      [Reply.adminOnly] := by
  exact ⟨rfl, by decide⟩

/-- **C9 (amended).** Every admin entry point invoked by a caller off the
allow-list leaves the session and the store untouched and raises nothing;
the command entry points (`/admin`, `/list`, `/export`) reply with the fixed
denial message, while the menu-button and FSM-step handlers send no reply
at all. -/
theorem C9_non_admin_gate (st : Store) (s : Session) (m : Msg)
    (pw : String) (today : Date) (h : is_admin m.from_user_id = false) :
    cmd_admin st s m = ⟨st, s, [.adminOnly], false⟩ ∧
    cmd_list today st s m = ⟨st, s, [.adminOnly], false⟩ ∧
    cmd_export today st s m = ⟨st, s, [.adminOnly], false⟩ ∧
    admin_close_menu st s m = ⟨st, s, [], false⟩ ∧
    admin_menu_list st s m = ⟨st, s, [], false⟩ ∧
    admin_menu_export st s m = ⟨st, s, [], false⟩ ∧
    admin_menu_export_today today st s m = ⟨st, s, [], false⟩ ∧
    admin_menu_reset pw st s m = ⟨st, s, [], false⟩ ∧
    admin_reset_password_step pw st s m = ⟨st, s, [], false⟩ ∧
    admin_reset_confirm st s m = ⟨st, s, [], false⟩ ∧
    admin_list_filter_step today st s m = ⟨st, s, [], false⟩ ∧
    admin_list_range_collect today st s m = ⟨st, s, [], false⟩ ∧
    admin_export_filter_step today st s m = ⟨st, s, [], false⟩ ∧
    admin_export_range_collect today st s m = ⟨st, s, [], false⟩ := by
  refine ⟨?_, ?_, ?_, ?_, ?_, ?_, ?_, ?_, ?_, ?_, ?_, ?_, ?_, ?_⟩ <;>
    simp [cmd_admin, cmd_list, cmd_export, admin_close_menu, admin_menu_list,
      admin_menu_export, admin_menu_export_today, admin_menu_reset,
      admin_reset_password_step, admin_reset_confirm, admin_list_filter_step,
      admin_list_range_collect, admin_export_filter_step,
      admin_export_range_collect, h]

/-- Witness for C9 (amended) at a concrete non-admin caller. -/
theorem C9_non_admin_gate_witness :
    cmd_admin emptyStore freshSession ⟨1, some ("/admin"), none⟩ =
      ⟨emptyStore, freshSession, [.adminOnly], false⟩ :=
  (C9_non_admin_gate emptyStore freshSession ⟨1, some ("/admin"), none⟩
    ("pw") ⟨2026, 10, 12⟩ (by decide)).1

/-- **C5.** When the storage layer rejects the final commit with a
duplicate error, the handler re-resolves: the store is unchanged, the
session is cleared, nothing is raised, and the reply matches the record
that actually exists — the stored number if the caller's identity is now
registered, otherwise the "could not register / phone taken" message (and
in that case a row with the conflicting phone really exists). -/
theorem C5_duplicate_commit_recovery (st : Store) (uid : Int)
    (phone fn ln : String) (consent : Int) (now : String) (e : DupField)
    (h : insert_participant st uid phone fn ln consent now = .error e) :
    (reg_commit st uid phone fn ln consent now).store = st ∧
    (reg_commit st uid phone fn ln consent now).sess = clearSession ∧
    (reg_commit st uid phone fn ln consent now).raised = false ∧
    ((∃ p, get_by_telegram_id st uid = some p ∧
        (reg_commit st uid phone fn ln consent now).replies = [.alreadyRegisteredCommit p.id]) ∨
      (get_by_telegram_id st uid = none ∧
        (reg_commit st uid phone fn ln consent now).replies = [.registerFailed] ∧
        ∃ q ∈ st.rows, q.phone = phone)) := by
  unfold reg_commit
  rw [h]
  cases hg : get_by_telegram_id st uid with
  | some p =>
    exact ⟨rfl, rfl, rfl, .inl ⟨p, rfl, rfl⟩⟩
  | none =>
    refine ⟨rfl, rfl, rfl, .inr ⟨rfl, rfl, ?_⟩⟩
    unfold insert_participant at h
    split at h
    next h1 =>
      exfalso
      rw [List.any_eq_true] at h1
      obtain ⟨q, hq, hqt⟩ := h1
      unfold get_by_telegram_id at hg
      rw [List.find?_eq_none] at hg
      exact hg q hq (by simpa using hqt)
    · split at h
      next h2 =>
        rw [List.any_eq_true] at h2
        obtain ⟨q, hq, hqp⟩ := h2
        exact ⟨q, hq, by simpa using hqp⟩
      · simp at h

/-- Witness for C5 at a concrete conflicting store. -/
theorem C5_duplicate_commit_recovery_witness :
    (reg_commit ⟨[⟨1, 7, "+70", "a", "b", 1, "t"⟩], 1⟩ 5 ("+70") ("c") ("d") 1 ("u")).store =
        ⟨[⟨1, 7, "+70", "a", "b", 1, "t"⟩], 1⟩ ∧
    (reg_commit ⟨[⟨1, 7, "+70", "a", "b", 1, "t"⟩], 1⟩ 5 ("+70") ("c") ("d") 1 ("u")).replies =
        [.registerFailed] := by
  have h := C5_duplicate_commit_recovery ⟨[⟨1, 7, "+70", "a", "b", 1, "t"⟩], 1⟩ 5
    ("+70") ("c") ("d") 1 ("u") .phone rfl
  exact ⟨h.1, rfl⟩

/-- **C4.** A caller whose identity already has a persisted record is
short-circuited at every registration step — initial entry, phone capture
(with a valid own contact), and the final name commit — to the originally
assigned number, with the store unchanged and no insert performed. -/
theorem C4_idempotent_reentry (st : Store) (s : Session) (m : Msg) (p : Participant)
    (hreg : get_by_telegram_id st m.from_user_id = some p) :
    (on_user_start_button st s m = ⟨st, clearSession, [.alreadyRegisteredButton p.id], false⟩) ∧
    (∀ c, m.contact = some c → (c.phone_number.getD "") ≠ "" →
      (match c.user_id with
       | none => false
       | some v => v ≠ 0 && v ≠ m.from_user_id) = false →
      on_phone st s m = ⟨st, clearSession, [.alreadyRegisteredPhone p.id], false⟩) ∧
    (∀ now ph fn, s.data.phone = some ph → s.data.first_name = some fn →
      pyStrip (m.text.getD "") ≠ "" →
      2 ≤ (pyStrip (m.text.getD "")).length → (pyStrip (m.text.getD "")).length ≤ 50 →
      on_last_name now st s m = ⟨st, clearSession, [.alreadyRegisteredFinal p.id], false⟩) := by
  refine ⟨?_, ?_, ?_⟩
  · unfold on_user_start_button
    rw [hreg]
  · intro c hc hpn hguard
    unfold on_phone
    rw [hc]
    simp only [hpn, if_false, hguard, Bool.false_eq_true, hreg]
  · intro now ph fn hph hfn hln h2 h50
    unfold on_last_name
    have hcond : ¬((pyStrip (m.text.getD "") = "" ∨ (pyStrip (m.text.getD "")).length < 2) ∨
        50 < (pyStrip (m.text.getD "")).length) := by
      push_neg
      exact ⟨⟨hln, by omega⟩, by omega⟩
    simp only [hph, hfn, hreg]
    split
    next hbad => exact absurd (by simpa using hbad) hcond
    · rfl

theorem wf_insert (s : Store) (a : InsArgs) (n : Nat) (s' : Store) (hwf : Store.WF s)
    (h : insertArgs s a = .ok (n, s')) : Store.WF s' := by
  obtain ⟨hn, hs', _, _⟩ := insertArgs_ok_iff s a n s' h
  rw [hs']
  constructor
  · rw [List.pairwise_append]
    refine ⟨hwf.1, List.pairwise_singleton _ _, ?_⟩
    intro p hp r hr
    rw [List.mem_singleton] at hr
    subst hr
    have := hwf.2 p hp
    simp only
    omega
  · intro r hr
    rcases List.mem_append.mp hr with hr | hr
    · have := hwf.2 r hr
      simp only
      omega
    · rw [List.mem_singleton] at hr
      subst hr
      simp only
      omega

/-- **C7.** Filter semantics: a successful two-date range yields the
half-open interval `[start 00:00, (end + 1 day) 00:00)`; no bounds selects
every record; the window `[D 00:00, D+1 00:00)` selects exactly the records
whose (well-formed) `created_at` lies on calendar day `D`; and on a
well-formed store the results are ascending by participant number, a shape
preserved by insert and wipe. -/
theorem C7_range_semantics :
    (∀ (today : Date) (args p1 p2 : String) (d1 d2 e2 : Date),
      pyStrip args ≠ "" → pyLower (pyStrip args) ≠ "today" →
      pySplit (pyStrip args) = [p1, p2] →
      parse_ymd p1 = some d1 → parse_ymd p2 = some d2 →
      date_add_one_day d2 = some e2 →
      range_from_args today args =
        some (some (dtIsoMidnight d1), some (dtIsoMidnight e2), none)) ∧
    (∀ s : Store, fetch_participants s none none = s.rows ∧
      count_participants s none none = s.rows.length) ∧
    (∀ (s : Store) (D D' : Date), D.valid = true → date_add_one_day D = some D' →
      (∀ r ∈ s.rows, wfCreated r.created_at) →
      fetch_participants s (some (dtIsoMidnight D)) (some (dtIsoMidnight D')) =
        s.rows.filter (fun r => (dateIsoChars D ++ ['T']).isPrefixOf r.created_at.data) ∧
      count_participants s (some (dtIsoMidnight D)) (some (dtIsoMidnight D')) =
        (s.rows.filter (fun r => (dateIsoChars D ++ ['T']).isPrefixOf r.created_at.data)).length) ∧
    (∀ (s : Store) (f t : Option String), Store.WF s →
      (fetch_participants s f t).Pairwise (fun a b => a.id < b.id)) ∧
    (∀ (s : Store) (a : InsArgs) (n : Nat) (s' : Store),
      Store.WF s → insertArgs s a = .ok (n, s') → Store.WF s') ∧
    (∀ s : Store, Store.WF (reset_database s)) := by
  refine ⟨?_, ?_, ?_, ?_, wf_insert, ?_⟩
  · intro today args p1 p2 d1 d2 e2 h1 h2 h3 h4 h5 h6
    unfold range_from_args
    dsimp only
    rw [if_neg h1, if_neg h2, h3]
    dsimp only
    rw [h4, h5]
    dsimp only
    rw [h6]
  · intro s
    constructor <;> simp [fetch_participants, count_participants, rowInRange]
  · intro s D D' hD hs hwf
    have hfilter : s.rows.filter
        (fun r => rowInRange (some (dtIsoMidnight D)) (some (dtIsoMidnight D')) r.created_at) =
        s.rows.filter (fun r => (dateIsoChars D ++ ['T']).isPrefixOf r.created_at.data) := by
      apply List.filter_congr
      intro r hr
      obtain ⟨d, t, hdv, htv, hdata⟩ := hwf r hr
      have hstr : r.created_at = String.mk (dateIsoChars d ++ ('T' :: t)) := String.ext hdata
      rw [hstr]
      exact inRange_day_eq D D' d t hD hs hdv htv
    exact ⟨hfilter, by unfold count_participants; rw [hfilter]⟩
  · intro s f t hwf
    exact hwf.1.filter _
  · intro s
    exact ⟨List.Pairwise.nil, fun r hr => absurd hr (List.not_mem_nil r)⟩

/-- Witness for C7 at concrete dates and a concrete two-row store. -/
theorem C7_range_semantics_witness :
    range_from_args ⟨2026, 10, 12⟩ ("2026-02-01 2026-02-06") =
      some (some (dtIsoMidnight ⟨2026, 2, 1⟩), some (dtIsoMidnight ⟨2026, 2, 7⟩), none) ∧
    fetch_participants
        ⟨[⟨1, 5, "+70", "a", "b", 1, "2026-02-01T09:15:00.123456"⟩,
          ⟨2, 6, "+71", "c", "d", 1, "2026-02-02T00:00:00"⟩], 2⟩
        (some (dtIsoMidnight ⟨2026, 2, 1⟩)) (some (dtIsoMidnight ⟨2026, 2, 2⟩)) =
      [⟨1, 5, "+70", "a", "b", 1, "2026-02-01T09:15:00.123456"⟩] := by
  constructor
  · exact C7_range_semantics.1 ⟨2026, 10, 12⟩ ("2026-02-01 2026-02-06")
      ("2026-02-01") ("2026-02-06") ⟨2026, 2, 1⟩ ⟨2026, 2, 6⟩ ⟨2026, 2, 7⟩
      (by decide) (by decide) (by decide) (by decide) (by decide) (by decide)
  · have h := (C7_range_semantics.2.2.1
      ⟨[⟨1, 5, "+70", "a", "b", 1, "2026-02-01T09:15:00.123456"⟩,
        ⟨2, 6, "+71", "c", "d", 1, "2026-02-02T00:00:00"⟩], 2⟩
      ⟨2026, 2, 1⟩ ⟨2026, 2, 2⟩ (by decide) (by decide) ?_).1
    · rw [h]
      decide
    · intro r hr
      rcases List.mem_cons.mp hr with hr | hr
      · subst hr
        exact ⟨⟨2026, 2, 1⟩, ("09:15:00.123456").data, by decide, by decide, by decide⟩
      · rcases List.mem_cons.mp hr with hr | hr
        · subst hr
          exact ⟨⟨2026, 2, 2⟩, ("00:00:00").data, by decide, by decide, by decide⟩
        · exact absurd hr (List.not_mem_nil r)

theorem start_store (st : Store) (s : Session) (m : Msg) : (start st s m).store = st := by
  unfold start show_user_start
  split <;> rfl

theorem on_user_start_button_store (st : Store) (s : Session) (m : Msg) :
    (on_user_start_button st s m).store = st := by
  unfold on_user_start_button
  split <;> rfl

theorem cmd_my_store (st : Store) (s : Session) (m : Msg) : (cmd_my st s m).store = st := by
  unfold cmd_my
  split <;> rfl

theorem on_consent_store (st : Store) (s : Session) (m : Msg) : (on_consent st s m).store = st := by
  unfold on_consent
  dsimp only
  repeat' split
  all_goals rfl

theorem on_phone_store (st : Store) (s : Session) (m : Msg) : (on_phone st s m).store = st := by
  unfold on_phone
  dsimp only
  repeat' split
  all_goals rfl

theorem on_first_name_store (st : Store) (s : Session) (m : Msg) :
    (on_first_name st s m).store = st := by
  unfold on_first_name
  dsimp only
  split <;> rfl

theorem cmd_admin_store (st : Store) (s : Session) (m : Msg) : (cmd_admin st s m).store = st := by
  unfold cmd_admin
  split <;> rfl

theorem admin_close_menu_store (st : Store) (s : Session) (m : Msg) :
    (admin_close_menu st s m).store = st := by
  unfold admin_close_menu
  split <;> rfl

theorem cmd_list_store (today : Date) (st : Store) (s : Session) (m : Msg) :
    (cmd_list today st s m).store = st := by
  unfold cmd_list
  dsimp only
  repeat' split
  all_goals rfl

theorem cmd_export_store (today : Date) (st : Store) (s : Session) (m : Msg) :
    (cmd_export today st s m).store = st := by
  unfold cmd_export
  dsimp only
  repeat' split
  all_goals rfl

theorem admin_menu_list_store (st : Store) (s : Session) (m : Msg) :
    (admin_menu_list st s m).store = st := by
  unfold admin_menu_list
  split <;> rfl

theorem admin_menu_export_store (st : Store) (s : Session) (m : Msg) :
    (admin_menu_export st s m).store = st := by
  unfold admin_menu_export
  split <;> rfl

theorem admin_menu_export_today_store (today : Date) (st : Store) (s : Session) (m : Msg) :
    (admin_menu_export_today today st s m).store = st := by
  unfold admin_menu_export_today
  dsimp only
  repeat' split
  all_goals rfl

theorem admin_list_filter_step_store (today : Date) (st : Store) (s : Session) (m : Msg) :
    (admin_list_filter_step today st s m).store = st := by
  unfold admin_list_filter_step
  dsimp only
  repeat' split
  all_goals rfl

theorem admin_list_range_collect_store (today : Date) (st : Store) (s : Session) (m : Msg) :
    (admin_list_range_collect today st s m).store = st := by
  unfold admin_list_range_collect
  dsimp only
  repeat' split
  all_goals rfl

theorem admin_export_filter_step_store (today : Date) (st : Store) (s : Session) (m : Msg) :
    (admin_export_filter_step today st s m).store = st := by
  unfold admin_export_filter_step
  dsimp only
  repeat' split
  all_goals rfl

theorem admin_export_range_collect_store (today : Date) (st : Store) (s : Session) (m : Msg) :
    (admin_export_range_collect today st s m).store = st := by
  unfold admin_export_range_collect
  dsimp only
  repeat' split
  all_goals rfl

theorem admin_menu_reset_store (pw : String) (st : Store) (s : Session) (m : Msg) :
    (admin_menu_reset pw st s m).store = st := by
  unfold admin_menu_reset
  repeat' split
  all_goals rfl

theorem admin_reset_password_step_store (pw : String) (st : Store) (s : Session) (m : Msg) :
    (admin_reset_password_step pw st s m).store = st := by
  unfold admin_reset_password_step
  dsimp only
  repeat' split
  all_goals rfl

theorem cmd_reset_store (st : Store) (s : Session) (m : Msg) : (cmd_reset st s m).store = st := rfl

theorem reg_commit_cases (st : Store) (uid : Int) (ph fn ln : String) (consent : Int) (now : String) :
    reg_commit st uid ph fn ln consent now =
      ⟨⟨st.rows ++ [⟨st.seq + 1, uid, ph, fn, ln, consent, now⟩], st.seq + 1⟩, clearSession,
        [.registered (st.seq + 1)], false⟩ ∨
    ((reg_commit st uid ph fn ln consent now).store = st ∧
      (reg_commit st uid ph fn ln consent now).sess = clearSession) := by
  unfold reg_commit
  cases h : insert_participant st uid ph fn ln consent now with
  | ok v =>
    obtain ⟨n, s'⟩ := v
    obtain ⟨hn, hs', _, _⟩ :=
      insertArgs_ok_iff st ⟨uid, ph, fn, ln, consent, now⟩ n s' h
    left
    rw [hn, hs']
  | error e =>
    right
    cases get_by_telegram_id st uid <;> exact ⟨rfl, rfl⟩

theorem on_last_name_out (now : String) (st : Store) (s : Session) (m : Msg) :
    ((on_last_name now st s m).store = st ∨
      ∃ r : Participant, r.consent = s.data.consent.getD 0 ∧
        (on_last_name now st s m).store = ⟨st.rows ++ [r], st.seq + 1⟩) ∧
    ((on_last_name now st s m).sess = s ∨ (on_last_name now st s m).sess = clearSession) := by
  unfold on_last_name
  dsimp only
  split
  · exact ⟨.inl rfl, .inl rfl⟩
  split
  next phone fn hph hfn =>
    split
    · exact ⟨.inl rfl, .inr rfl⟩
    · split
      · split
        · exact ⟨.inl rfl, .inr rfl⟩
        · rcases reg_commit_cases st m.from_user_id phone fn (pyStrip (m.text.getD ""))
            (s.data.consent.getD 0) now with hc | hc
          · exact ⟨.inr ⟨⟨st.seq + 1, m.from_user_id, phone, fn, pyStrip (m.text.getD ""),
              s.data.consent.getD 0, now⟩, rfl, by rw [hc]⟩, .inr (by rw [hc])⟩
          · exact ⟨.inl hc.1, .inr hc.2⟩
      · rcases reg_commit_cases st m.from_user_id phone fn (pyStrip (m.text.getD ""))
          (s.data.consent.getD 0) now with hc | hc
        · exact ⟨.inr ⟨⟨st.seq + 1, m.from_user_id, phone, fn, pyStrip (m.text.getD ""),
            s.data.consent.getD 0, now⟩, rfl, by rw [hc]⟩, .inr (by rw [hc])⟩
        · exact ⟨.inl hc.1, .inr hc.2⟩
  next => exact ⟨.inl rfl, .inl rfl⟩

theorem admin_reset_confirm_out (st : Store) (s : Session) (m : Msg) :
    ((admin_reset_confirm st s m).store = st ∨
      (pyStrip (m.text.getD "") = "✅ Да, стереть всё" ∧
        (admin_reset_confirm st s m).store = reset_database st)) ∧
    ((admin_reset_confirm st s m).sess = s ∨ (admin_reset_confirm st s m).sess = clearSession) := by
  unfold admin_reset_confirm
  dsimp only
  repeat' split
  all_goals try exact ⟨.inl rfl, .inl rfl⟩
  all_goals try exact ⟨.inl rfl, .inr rfl⟩
  next h =>
    rw [Decidable.not_not] at h
    exact ⟨.inr ⟨h, rfl⟩, .inr rfl⟩

theorem dsc_s (pw : String) (s : Session) (m : Msg) {out : Session} (h : out = s) :
    DispatchSessCases pw s m out := .inl h

theorem dsc_clear (pw : String) (s : Session) (m : Msg) {out : Session} (h : out = clearSession) :
    DispatchSessCases pw s m out := .inr (.inl h)

theorem dsc_consent (pw : String) (s : Session) (m : Msg) {out : Session}
    (h : out = ⟨.regWaitingConsent, s.data⟩) :
    DispatchSessCases pw s m out := .inr (.inr (.inl h))

theorem dsc_phone (pw : String) (s : Session) (m : Msg) {out : Session}
    (h : out = ⟨.regWaitingPhone, { s.data with consent := some 1 }⟩) :
    DispatchSessCases pw s m out := .inr (.inr (.inr (.inl h)))

theorem dsc_firstName (pw : String) (s : Session) (m : Msg) {out : Session}
    (h1 : s.state = .regWaitingPhone) (ph : String)
    (h : out = ⟨.regWaitingFirstName, { s.data with phone := some ph }⟩) :
    DispatchSessCases pw s m out := .inr (.inr (.inr (.inr (.inl ⟨h1, ph, h⟩))))

theorem dsc_lastName (pw : String) (s : Session) (m : Msg) {out : Session}
    (h1 : s.state = .regWaitingFirstName) (fn : String)
    (h : out = ⟨.regWaitingLastName, { s.data with first_name := some fn }⟩) :
    DispatchSessCases pw s m out := .inr (.inr (.inr (.inr (.inr (.inl ⟨h1, fn, h⟩)))))

theorem dsc_listFrom (pw : String) (s : Session) (m : Msg) {out : Session}
    (h : out = ⟨.admListWaitFrom, s.data⟩) :
    DispatchSessCases pw s m out := .inr (.inr (.inr (.inr (.inr (.inr (.inl h))))))

theorem dsc_exportFrom (pw : String) (s : Session) (m : Msg) {out : Session}
    (h : out = ⟨.admExportWaitFrom, s.data⟩) :
    DispatchSessCases pw s m out := .inr (.inr (.inr (.inr (.inr (.inr (.inr (.inl h)))))))

theorem dsc_listTo (pw : String) (s : Session) (m : Msg) {out : Session}
    (h : out = ⟨.admListWaitTo, { s.data with list_step := some ("from") }⟩) :
    DispatchSessCases pw s m out :=
  .inr (.inr (.inr (.inr (.inr (.inr (.inr (.inr (.inl h))))))))

theorem dsc_exportTo (pw : String) (s : Session) (m : Msg) {out : Session}
    (h : out = ⟨.admExportWaitTo, { s.data with export_step := some ("from") }⟩) :
    DispatchSessCases pw s m out :=
  .inr (.inr (.inr (.inr (.inr (.inr (.inr (.inr (.inr (.inl h)))))))))

theorem dsc_listCollect (pw : String) (s : Session) (m : Msg) {out : Session}
    (h1 : s.state = .admListWaitTo) (d : String)
    (h : out = ⟨s.state, { s.data with list_from := some d, list_step := some ("to") }⟩) :
    DispatchSessCases pw s m out :=
  .inr (.inr (.inr (.inr (.inr (.inr (.inr (.inr (.inr (.inr (.inl ⟨h1, d, h⟩))))))))))

theorem dsc_exportCollect (pw : String) (s : Session) (m : Msg) {out : Session}
    (h1 : s.state = .admExportWaitTo) (d : String)
    (h : out = ⟨s.state, { s.data with export_from := some d, export_step := some ("to") }⟩) :
    DispatchSessCases pw s m out :=
  .inr (.inr (.inr (.inr (.inr (.inr (.inr (.inr (.inr (.inr (.inr (.inl ⟨h1, d, h⟩)))))))))))

theorem dsc_waitPw (pw : String) (s : Session) (m : Msg) {out : Session}
    (h1 : pw ≠ "") (h : out = ⟨.admResetWaitPassword, s.data⟩) :
    DispatchSessCases pw s m out :=
  .inr (.inr (.inr (.inr (.inr (.inr (.inr (.inr (.inr (.inr (.inr (.inr (.inl ⟨h1, h⟩))))))))))))

theorem dsc_confirm (pw : String) (s : Session) (m : Msg) {out : Session}
    (h1 : s.state = .admResetWaitPassword) (h2 : pyStrip (m.text.getD "") = pw)
    (h : out = ⟨.admResetConfirm, s.data⟩) :
    DispatchSessCases pw s m out :=
  .inr (.inr (.inr (.inr (.inr (.inr (.inr (.inr (.inr (.inr (.inr (.inr (.inr ⟨h1, h2, h⟩))))))))))))

theorem start_sessC (pw : String) (st : Store) (s : Session) (m : Msg) :
    DispatchSessCases pw s m (start st s m).sess := by
  unfold start show_user_start
  split <;> exact dsc_clear pw s m rfl

theorem on_user_start_button_sessC (pw : String) (st : Store) (s : Session) (m : Msg) :
    DispatchSessCases pw s m (on_user_start_button st s m).sess := by
  unfold on_user_start_button
  split
  · exact dsc_clear pw s m rfl
  · exact dsc_consent pw s m rfl

theorem cmd_my_sessC (pw : String) (st : Store) (s : Session) (m : Msg) :
    DispatchSessCases pw s m (cmd_my st s m).sess := by
  unfold cmd_my
  split
  · exact dsc_s pw s m rfl
  · exact dsc_clear pw s m rfl

theorem cmd_reset_sessC (pw : String) (st : Store) (s : Session) (m : Msg) :
    DispatchSessCases pw s m (cmd_reset st s m).sess :=
  dsc_clear pw s m rfl

theorem on_consent_sessC (pw : String) (st : Store) (s : Session) (m : Msg) :
    DispatchSessCases pw s m (on_consent st s m).sess := by
  unfold on_consent
  dsimp only
  repeat' split
  · exact dsc_clear pw s m rfl
  · exact dsc_s pw s m rfl
  · exact dsc_phone pw s m rfl

theorem on_phone_sessC (pw : String) (st : Store) (s : Session) (m : Msg)
    (h1 : s.state = .regWaitingPhone) :
    DispatchSessCases pw s m (on_phone st s m).sess := by
  unfold on_phone
  dsimp only
  repeat' split
  all_goals first
    | exact dsc_s pw s m rfl
    | exact dsc_clear pw s m rfl
    | exact dsc_firstName pw s m h1 _ rfl

theorem on_first_name_sessC (pw : String) (st : Store) (s : Session) (m : Msg)
    (h1 : s.state = .regWaitingFirstName) :
    DispatchSessCases pw s m (on_first_name st s m).sess := by
  unfold on_first_name
  dsimp only
  split
  · exact dsc_s pw s m rfl
  · exact dsc_lastName pw s m h1 _ rfl

theorem on_last_name_sessC (pw : String) (now : String) (st : Store) (s : Session) (m : Msg) :
    DispatchSessCases pw s m (on_last_name now st s m).sess := by
  rcases (on_last_name_out now st s m).2 with h | h
  · exact dsc_s pw s m h
  · exact dsc_clear pw s m h

theorem cmd_admin_sessC (pw : String) (st : Store) (s : Session) (m : Msg) :
    DispatchSessCases pw s m (cmd_admin st s m).sess := by
  unfold cmd_admin
  split
  · exact dsc_s pw s m rfl
  · exact dsc_clear pw s m rfl

theorem admin_close_menu_sessC (pw : String) (st : Store) (s : Session) (m : Msg) :
    DispatchSessCases pw s m (admin_close_menu st s m).sess := by
  unfold admin_close_menu
  split
  · exact dsc_s pw s m rfl
  · exact dsc_clear pw s m rfl

theorem cmd_list_sessC (pw : String) (today : Date) (st : Store) (s : Session) (m : Msg) :
    DispatchSessCases pw s m (cmd_list today st s m).sess := by
  unfold cmd_list
  dsimp only
  repeat' split
  all_goals exact dsc_s pw s m rfl

theorem cmd_export_sessC (pw : String) (today : Date) (st : Store) (s : Session) (m : Msg) :
    DispatchSessCases pw s m (cmd_export today st s m).sess := by
  unfold cmd_export
  dsimp only
  repeat' split
  all_goals exact dsc_s pw s m rfl

theorem admin_menu_list_sessC (pw : String) (st : Store) (s : Session) (m : Msg) :
    DispatchSessCases pw s m (admin_menu_list st s m).sess := by
  unfold admin_menu_list
  split
  · exact dsc_s pw s m rfl
  · exact dsc_listFrom pw s m rfl

theorem admin_menu_export_sessC (pw : String) (st : Store) (s : Session) (m : Msg) :
    DispatchSessCases pw s m (admin_menu_export st s m).sess := by
  unfold admin_menu_export
  split
  · exact dsc_s pw s m rfl
  · exact dsc_exportFrom pw s m rfl

theorem admin_menu_export_today_sessC (pw : String) (today : Date) (st : Store) (s : Session)
    (m : Msg) : DispatchSessCases pw s m (admin_menu_export_today today st s m).sess := by
  unfold admin_menu_export_today
  dsimp only
  repeat' split
  all_goals first
    | exact dsc_s pw s m rfl
    | exact dsc_clear pw s m rfl

theorem admin_list_filter_step_sessC (pw : String) (today : Date) (st : Store) (s : Session)
    (m : Msg) : DispatchSessCases pw s m (admin_list_filter_step today st s m).sess := by
  unfold admin_list_filter_step
  dsimp only
  repeat' split
  all_goals first
    | exact dsc_s pw s m rfl
    | exact dsc_clear pw s m rfl
    | exact dsc_listTo pw s m rfl

theorem admin_export_filter_step_sessC (pw : String) (today : Date) (st : Store) (s : Session)
    (m : Msg) : DispatchSessCases pw s m (admin_export_filter_step today st s m).sess := by
  unfold admin_export_filter_step
  dsimp only
  repeat' split
  all_goals first
    | exact dsc_s pw s m rfl
    | exact dsc_clear pw s m rfl
    | exact dsc_exportTo pw s m rfl

theorem admin_list_range_collect_sessC (pw : String) (today : Date) (st : Store) (s : Session)
    (m : Msg) (h1 : s.state = .admListWaitTo) :
    DispatchSessCases pw s m (admin_list_range_collect today st s m).sess := by
  unfold admin_list_range_collect
  dsimp only
  repeat' split
  all_goals first
    | exact dsc_s pw s m rfl
    | exact dsc_clear pw s m rfl
    | exact dsc_listCollect pw s m h1 _ rfl

theorem admin_export_range_collect_sessC (pw : String) (today : Date) (st : Store) (s : Session)
    (m : Msg) (h1 : s.state = .admExportWaitTo) :
    DispatchSessCases pw s m (admin_export_range_collect today st s m).sess := by
  unfold admin_export_range_collect
  dsimp only
  repeat' split
  all_goals first
    | exact dsc_s pw s m rfl
    | exact dsc_clear pw s m rfl
    | exact dsc_exportCollect pw s m h1 _ rfl

theorem admin_menu_reset_sessC (pw : String) (st : Store) (s : Session) (m : Msg) :
    DispatchSessCases pw s m (admin_menu_reset pw st s m).sess := by
  unfold admin_menu_reset
  split
  · exact dsc_s pw s m rfl
  · split
    · exact dsc_clear pw s m rfl
    next h => exact dsc_waitPw pw s m h rfl

theorem admin_reset_password_step_sessC (pw : String) (st : Store) (s : Session) (m : Msg)
    (h1 : s.state = .admResetWaitPassword) :
    DispatchSessCases pw s m (admin_reset_password_step pw st s m).sess := by
  unfold admin_reset_password_step
  dsimp only
  split
  · exact dsc_s pw s m rfl
  · split
    · exact dsc_clear pw s m rfl
    · split
      · exact dsc_s pw s m rfl
      next h =>
        rw [Decidable.not_not] at h
        exact dsc_confirm pw s m h1 h rfl

theorem admin_reset_confirm_sessC (pw : String) (st : Store) (s : Session) (m : Msg) :
    DispatchSessCases pw s m (admin_reset_confirm st s m).sess := by
  rcases (admin_reset_confirm_out st s m).2 with h | h
  · exact dsc_s pw s m h
  · exact dsc_clear pw s m h

theorem dispatch_cases (pw : String) (today : Date) (now : String)
    (st : Store) (s : Session) (m : Msg) :
    ((dispatch pw today now st s m).store = st ∨
      (s.state = .regWaitingLastName ∧ ∃ r : Participant, r.consent = s.data.consent.getD 0 ∧
        (dispatch pw today now st s m).store = ⟨st.rows ++ [r], st.seq + 1⟩) ∨
      (s.state = .admResetConfirm ∧ pyStrip (m.text.getD "") = "✅ Да, стереть всё" ∧
        (dispatch pw today now st s m).store = reset_database st)) ∧
    DispatchSessCases pw s m (dispatch pw today now st s m).sess := by
  generalize hd : dispatch pw today now st s m = o
  unfold dispatch at hd
  rcases Decidable.em ((commandMatch ("start") (m.text.getD "")) = true) with h1 | h1
  · rw [if_pos h1] at hd
    subst hd
    exact ⟨.inl (start_store st s m), start_sessC pw st s m⟩
  rw [if_neg h1] at hd
  rcases Decidable.em (m.text.getD "" = "🚀 Старт") with h2 | h2
  · rw [if_pos h2] at hd
    subst hd
    exact ⟨.inl (on_user_start_button_store st s m), on_user_start_button_sessC pw st s m⟩
  rw [if_neg h2] at hd
  rcases Decidable.em ((commandMatch ("my") (m.text.getD "")) = true) with h3 | h3
  · rw [if_pos h3] at hd
    subst hd
    exact ⟨.inl (cmd_my_store st s m), cmd_my_sessC pw st s m⟩
  rw [if_neg h3] at hd
  rcases Decidable.em ((commandMatch ("reset") (m.text.getD "")) = true) with h4 | h4
  · rw [if_pos h4] at hd
    subst hd
    exact ⟨.inl (cmd_reset_store st s m), cmd_reset_sessC pw st s m⟩
  rw [if_neg h4] at hd
  rcases Decidable.em ((commandMatch ("admin") (m.text.getD "")) = true) with h5 | h5
  · rw [if_pos h5] at hd
    subst hd
    exact ⟨.inl (cmd_admin_store st s m), cmd_admin_sessC pw st s m⟩
  rw [if_neg h5] at hd
  rcases Decidable.em ((commandMatch ("list") (m.text.getD "")) = true) with h6 | h6
  · rw [if_pos h6] at hd
    subst hd
    exact ⟨.inl (cmd_list_store today st s m), cmd_list_sessC pw today st s m⟩
  rw [if_neg h6] at hd
  rcases Decidable.em ((commandMatch ("export") (m.text.getD "")) = true) with h7 | h7
  · rw [if_pos h7] at hd
    subst hd
    exact ⟨.inl (cmd_export_store today st s m), cmd_export_sessC pw today st s m⟩
  rw [if_neg h7] at hd
  rcases Decidable.em ((is_admin m.from_user_id && m.text.getD "" = "⬅️ Закрыть меню") = true) with h8 | h8
  · rw [if_pos h8] at hd
    subst hd
    exact ⟨.inl (admin_close_menu_store st s m), admin_close_menu_sessC pw st s m⟩
  rw [if_neg h8] at hd
  rcases Decidable.em ((is_admin m.from_user_id && m.text.getD "" = "📋 Список") = true) with h9 | h9
  · rw [if_pos h9] at hd
    subst hd
    exact ⟨.inl (admin_menu_list_store st s m), admin_menu_list_sessC pw st s m⟩
  rw [if_neg h9] at hd
  rcases Decidable.em ((is_admin m.from_user_id && m.text.getD "" = "📤 Экспорт") = true) with h10 | h10
  · rw [if_pos h10] at hd
    subst hd
    exact ⟨.inl (admin_menu_export_store st s m), admin_menu_export_sessC pw st s m⟩
  rw [if_neg h10] at hd
  rcases Decidable.em ((is_admin m.from_user_id && m.text.getD "" = "📤 Экспорт сегодня") = true) with h11 | h11
  · rw [if_pos h11] at hd
    subst hd
    exact ⟨.inl (admin_menu_export_today_store today st s m),
      admin_menu_export_today_sessC pw today st s m⟩
  rw [if_neg h11] at hd
  rcases Decidable.em ((is_admin m.from_user_id && m.text.getD "" = "🧹 Ресет базы") = true) with h12 | h12
  · rw [if_pos h12] at hd
    subst hd
    exact ⟨.inl (admin_menu_reset_store pw st s m), admin_menu_reset_sessC pw st s m⟩
  rw [if_neg h12] at hd
  split at hd
  next heq =>
    subst hd
    exact ⟨.inl (admin_reset_password_step_store pw st s m),
      admin_reset_password_step_sessC pw st s m heq⟩
  next heq =>
    subst hd
    constructor
    · rcases (admin_reset_confirm_out st s m).1 with h | ⟨ha, hr⟩
      · exact .inl h
      · exact .inr (.inr ⟨heq, ha, hr⟩)
    · exact admin_reset_confirm_sessC pw st s m
  next heq =>
    subst hd
    exact ⟨.inl (admin_list_filter_step_store today st s m),
      admin_list_filter_step_sessC pw today st s m⟩
  next heq =>
    subst hd
    exact ⟨.inl (admin_list_range_collect_store today st s m),
      admin_list_range_collect_sessC pw today st s m heq⟩
  next heq =>
    subst hd
    exact ⟨.inl (admin_export_filter_step_store today st s m),
      admin_export_filter_step_sessC pw today st s m⟩
  next heq =>
    subst hd
    exact ⟨.inl (admin_export_range_collect_store today st s m),
      admin_export_range_collect_sessC pw today st s m heq⟩
  next heq =>
    subst hd
    exact ⟨.inl (on_consent_store st s m), on_consent_sessC pw st s m⟩
  next heq =>
    subst hd
    exact ⟨.inl (on_phone_store st s m), on_phone_sessC pw st s m heq⟩
  next heq =>
    subst hd
    exact ⟨.inl (on_first_name_store st s m), on_first_name_sessC pw st s m heq⟩
  next heq =>
    subst hd
    constructor
    · rcases (on_last_name_out now st s m).1 with h | ⟨r, hr, hs⟩
      · exact .inl h
      · exact .inr (.inl ⟨heq, r, hr, hs⟩)
    · exact on_last_name_sessC pw now st s m
  next heq =>
    subst hd
    exact ⟨.inl rfl, dsc_s pw s m rfl⟩

theorem sessCases_confirm {pw : String} {s : Session} {m : Msg} {out : Session}
    (h : DispatchSessCases pw s m out) (hc : out.state = .admResetConfirm) :
    s.state = .admResetConfirm ∨
      (s.state = .admResetWaitPassword ∧ pyStrip (m.text.getD "") = pw) := by
  rcases h with h|h|h|h|⟨h1,ph,h⟩|⟨h1,fn,h⟩|h|h|h|h|⟨h1,d,h⟩|⟨h1,d,h⟩|⟨h1,h⟩|⟨h1,h2,h⟩
  · rw [h] at hc; exact .inl hc
  · rw [h] at hc; exact absurd hc (by decide)
  · rw [h] at hc; simp at hc
  · rw [h] at hc; simp at hc
  · rw [h] at hc; simp at hc
  · rw [h] at hc; simp at hc
  · rw [h] at hc; simp at hc
  · rw [h] at hc; simp at hc
  · rw [h] at hc; simp at hc
  · rw [h] at hc; simp at hc
  · rw [h] at hc; simp at hc; exact absurd (h1.symm.trans hc) (by decide)
  · rw [h] at hc; simp at hc; exact absurd (h1.symm.trans hc) (by decide)
  · rw [h] at hc; simp at hc
  · exact .inr ⟨h1, h2⟩

theorem sessCases_waitPassword {pw : String} {s : Session} {m : Msg} {out : Session}
    (h : DispatchSessCases pw s m out) (hc : out.state = .admResetWaitPassword) :
    s.state = .admResetWaitPassword ∨ pw ≠ "" := by
  rcases h with h|h|h|h|⟨h1,ph,h⟩|⟨h1,fn,h⟩|h|h|h|h|⟨h1,d,h⟩|⟨h1,d,h⟩|⟨h1,h⟩|⟨h1,h2,h⟩
  · rw [h] at hc; exact .inl hc
  · rw [h] at hc; exact absurd hc (by decide)
  · rw [h] at hc; simp at hc
  · rw [h] at hc; simp at hc
  · rw [h] at hc; simp at hc
  · rw [h] at hc; simp at hc
  · rw [h] at hc; simp at hc
  · rw [h] at hc; simp at hc
  · rw [h] at hc; simp at hc
  · rw [h] at hc; simp at hc
  · rw [h] at hc; simp at hc; exact absurd (h1.symm.trans hc) (by decide)
  · rw [h] at hc; simp at hc; exact absurd (h1.symm.trans hc) (by decide)
  · exact .inr h1
  · exact .inl h1

theorem sessConsentOk_clear : sessConsentOk clearSession := by
  intro hst
  rcases hst with a | a | a <;> exact absurd a (by decide)

theorem sessCases_consent {pw : String} {s : Session} {m : Msg} {out : Session}
    (h : DispatchSessCases pw s m out) (hs : sessConsentOk s) : sessConsentOk out := by
  rcases h with h|h|h|h|⟨h1,ph,h⟩|⟨h1,fn,h⟩|h|h|h|h|⟨h1,d,h⟩|⟨h1,d,h⟩|⟨h1,h⟩|⟨h1,h2,h⟩
  · exact h ▸ hs
  · exact h ▸ sessConsentOk_clear
  · rw [h]; intro hst; rcases hst with a | a | a <;> simp at a
  · rw [h]; intro _; rfl
  · rw [h]; intro _; exact hs (.inl h1)
  · rw [h]; intro _; exact hs (.inr (.inl h1))
  · rw [h]; intro hst; rcases hst with a | a | a <;> simp at a
  · rw [h]; intro hst; rcases hst with a | a | a <;> simp at a
  · rw [h]; intro hst; rcases hst with a | a | a <;> simp at a
  · rw [h]; intro hst; rcases hst with a | a | a <;> simp at a
  · rw [h]; intro hst; rcases hst with a | a | a <;>
      (simp at a; exact absurd (h1.symm.trans a) (by decide))
  · rw [h]; intro hst; rcases hst with a | a | a <;>
      (simp at a; exact absurd (h1.symm.trans a) (by decide))
  · rw [h]; intro hst; rcases hst with a | a | a <;> simp at a
  · rw [h]; intro hst; rcases hst with a | a | a <;> simp at a

theorem textAt_cons_succ (m : Msg) (msgs : List Msg) (i : Nat) (v : String) :
    textAt (m :: msgs) (i + 1) v ↔ textAt msgs i v := by
  unfold textAt
  simp only [List.getElem?_cons_succ]

theorem textAt_cons_zero (m : Msg) (msgs : List Msg) (v : String)
    (h : pyStrip (m.text.getD "") = v) : textAt (m :: msgs) 0 v :=
  ⟨m, by simp, h⟩

theorem runMsgs_no_pw_no_wipe (today : Date) (now : String) :
    ∀ (msgs : List Msg) (st : Store) (s : Session),
      s.state ≠ .admResetWaitPassword → s.state ≠ .admResetConfirm →
      ∀ p ∈ st.rows, p ∈ (runMsgs "" today now (st, s) msgs).1.rows := by
  intro msgs
  induction msgs with
  | nil => intro st s _ _ p hp; exact hp
  | cons m rest ih =>
    intro st s hwp hcf p hp
    obtain ⟨hstore, hsess⟩ := dispatch_cases "" today now st s m
    have hnotwp : (dispatch "" today now st s m).sess.state ≠ .admResetWaitPassword := by
      intro hc
      rcases sessCases_waitPassword hsess hc with h | h
      · exact hwp h
      · exact h rfl
    have hnotcf : (dispatch "" today now st s m).sess.state ≠ .admResetConfirm := by
      intro hc
      rcases sessCases_confirm hsess hc with h | ⟨h, _⟩
      · exact hcf h
      · exact hwp h
    have hmem : p ∈ (dispatch "" today now st s m).store.rows := by
      rcases hstore with h | ⟨_, r, _, h⟩ | ⟨h, _, _⟩
      · rw [h]; exact hp
      · rw [h]; exact List.mem_append_left _ hp
      · exact absurd h hcf
    exact ih _ _ hnotwp hnotcf p hmem

theorem runMsgs_wipe_trace (pw : String) (today : Date) (now : String) :
    ∀ (msgs : List Msg) (st : Store) (s : Session) (p : Participant),
      p ∈ st.rows → p ∉ (runMsgs pw today now (st, s) msgs).1.rows →
      if s.state = .admResetConfirm then ∃ j, textAt msgs j ("✅ Да, стереть всё")
      else ∃ i j, i < j ∧ textAt msgs i pw ∧ textAt msgs j ("✅ Да, стереть всё") := by
  intro msgs
  induction msgs with
  | nil => intro st s p hin hout; exact absurd hin hout
  | cons m rest ih =>
    intro st s p hin hout
    obtain ⟨hstore, hsess⟩ := dispatch_cases pw today now st s m
    by_cases hw : s.state = .admResetConfirm ∧ pyStrip (m.text.getD "") = "✅ Да, стереть всё"
    · rw [if_pos hw.1]
      exact ⟨0, textAt_cons_zero m rest _ hw.2⟩
    · have hmem : p ∈ (dispatch pw today now st s m).store.rows := by
        rcases hstore with h | ⟨_, r, _, h⟩ | ⟨h1, h2, _⟩
        · rw [h]; exact hin
        · rw [h]; exact List.mem_append_left _ hin
        · exact absurd ⟨h1, h2⟩ hw
      have IH := ih (dispatch pw today now st s m).store (dispatch pw today now st s m).sess
        p hmem hout
      by_cases hc : (dispatch pw today now st s m).sess.state = .admResetConfirm
      · rw [if_pos hc] at IH
        obtain ⟨j, hj⟩ := IH
        rcases sessCases_confirm hsess hc with hsc | ⟨hswp, hstrip⟩
        · rw [if_pos hsc]
          exact ⟨j + 1, (textAt_cons_succ m rest j _).mpr hj⟩
        · rw [if_neg (by rw [hswp]; decide)]
          exact ⟨0, j + 1, Nat.succ_pos j, textAt_cons_zero m rest pw hstrip,
            (textAt_cons_succ m rest j _).mpr hj⟩
      · rw [if_neg hc] at IH
        obtain ⟨i, j, hij, hi, hj⟩ := IH
        by_cases hsc : s.state = .admResetConfirm
        · rw [if_pos hsc]
          exact ⟨j + 1, (textAt_cons_succ m rest j _).mpr hj⟩
        · rw [if_neg hsc]
          exact ⟨i + 1, j + 1, by omega, (textAt_cons_succ m rest i _).mpr hi,
            (textAt_cons_succ m rest j _).mpr hj⟩

/-- **C3.** The Reset sub-flow: with no configured secret it refuses
immediately and no trace from a non-reset state ever removes a stored row;
with a secret, a row can disappear only if the trace contains the correct
password strictly before the exact affirmative confirmation; and any
non-affirmative input at the confirmation step leaves the store untouched. -/
theorem C3_reset_protocol :
    (∀ (st : Store) (s : Session) (m : Msg), is_admin m.from_user_id = true →
      admin_menu_reset "" st s m = ⟨st, clearSession, [.resetPasswordMissing], false⟩) ∧
    (∀ (today : Date) (now : String) (msgs : List Msg) (st : Store) (s : Session),
      s.state ≠ .admResetWaitPassword → s.state ≠ .admResetConfirm →
      ∀ p ∈ st.rows, p ∈ (runMsgs "" today now (st, s) msgs).1.rows) ∧
    (∀ (pw : String) (today : Date) (now : String) (msgs : List Msg)
      (st : Store) (s : Session) (p : Participant),
      s.state ≠ .admResetConfirm →
      p ∈ st.rows → p ∉ (runMsgs pw today now (st, s) msgs).1.rows →
      ∃ i j, i < j ∧ textAt msgs i pw ∧ textAt msgs j ("✅ Да, стереть всё")) ∧
    (∀ (pw : String) (today : Date) (now : String) (st : Store) (s : Session) (m : Msg),
      s.state = .admResetConfirm → pyStrip (m.text.getD "") ≠ "✅ Да, стереть всё" →
      (dispatch pw today now st s m).store = st) := by
  refine ⟨?_, ?_, ?_, ?_⟩
  · intro st s m h
    simp [admin_menu_reset, h]
  · exact fun today now => runMsgs_no_pw_no_wipe today now
  · intro pw today now msgs st s p hcf hin hout
    have h := runMsgs_wipe_trace pw today now msgs st s p hin hout
    rwa [if_neg hcf] at h
  · intro pw today now st s m hcf hna
    rcases (dispatch_cases pw today now st s m).1 with h | ⟨h1, _, _, _⟩ | ⟨_, h2, _⟩
    · exact h
    · rw [hcf] at h1; exact absurd h1 (by decide)
    · exact absurd h2 hna

/-- Witness for C3: refusal at a concrete admin caller with no secret. -/
theorem C3_reset_protocol_witness :
    admin_menu_reset "" emptyStore freshSession ⟨922603146, some ("🧹 Ресет базы"), none⟩ =
      ⟨emptyStore, clearSession, [.resetPasswordMissing], false⟩ :=
  C3_reset_protocol.1 emptyStore freshSession ⟨922603146, some ("🧹 Ресет базы"), none⟩
    (by decide)

/-- **C6.** Consent gating: each dispatch round preserves "all persisted
rows have consent 1" together with the session invariant that the phone and
name collection states imply a recorded consent of 1 (so every insert passes
consent 1), this invariant holds along every trace, and a negative consent
answer returns the session to idle, sending the decline message and leaving
the store untouched. -/
theorem C6_consent_required :
    (∀ (pw : String) (today : Date) (now : String) (st : Store) (s : Session) (m : Msg),
      storeConsentOk st → sessConsentOk s →
      storeConsentOk (dispatch pw today now st s m).store ∧
      sessConsentOk (dispatch pw today now st s m).sess) ∧
    (∀ (pw : String) (today : Date) (now : String) (msgs : List Msg) (st : Store) (s : Session),
      storeConsentOk st → sessConsentOk s →
      storeConsentOk (runMsgs pw today now (st, s) msgs).1 ∧
      sessConsentOk (runMsgs pw today now (st, s) msgs).2) ∧
    (∀ (st : Store) (s : Session) (m : Msg), pyStrip (m.text.getD "") = "❌ Не согласен" →
      on_consent st s m = ⟨st, clearSession, [.consentDeclined], false⟩) := by
  have step : ∀ (pw : String) (today : Date) (now : String) (st : Store) (s : Session) (m : Msg),
      storeConsentOk st → sessConsentOk s →
      storeConsentOk (dispatch pw today now st s m).store ∧
      sessConsentOk (dispatch pw today now st s m).sess := by
    intro pw today now st s m hstore hsess
    obtain ⟨hst, hse⟩ := dispatch_cases pw today now st s m
    constructor
    · rcases hst with h | ⟨h1, r, hr, h⟩ | ⟨_, _, h⟩
      · rw [h]; exact hstore
      · rw [h]
        intro x hx
        rcases List.mem_append.mp hx with hx | hx
        · exact hstore x hx
        · rw [List.mem_singleton] at hx
          subst hx
          rw [hr, hsess (.inr (.inr h1))]
          rfl
      · rw [h]
        intro x hx
        exact absurd hx (List.not_mem_nil x)
    · exact sessCases_consent hse hsess
  refine ⟨step, ?_, ?_⟩
  · intro pw today now msgs
    induction msgs with
    | nil => intro st s h1 h2; exact ⟨h1, h2⟩
    | cons m rest ih =>
      intro st s h1 h2
      obtain ⟨h1', h2'⟩ := step pw today now st s m h1 h2
      exact ih _ _ h1' h2'
  · intro st s m h
    unfold on_consent
    dsimp only
    rw [if_pos h]

/-- Witness for C6: a concrete full registration trace keeps every stored
consent equal to 1. -/
theorem C6_consent_required_witness :
    storeConsentOk (runMsgs ("pw") ⟨2026, 10, 12⟩ ("t") (emptyStore, freshSession)
      [⟨5, some ("🚀 Старт"), none⟩, ⟨5, some ("✅ Согласен"), none⟩,
       ⟨5, none, some ⟨some ("+70"), some 5⟩⟩, ⟨5, some ("Ann"), none⟩,
       ⟨5, some ("Lee"), none⟩]).1 :=
  (C6_consent_required.2.1 ("pw") ⟨2026, 10, 12⟩ ("t")
    [⟨5, some ("🚀 Старт"), none⟩, ⟨5, some ("✅ Согласен"), none⟩,
     ⟨5, none, some ⟨some ("+70"), some 5⟩⟩, ⟨5, some ("Ann"), none⟩,
     ⟨5, some ("Lee"), none⟩] emptyStore freshSession
    (by intro r hr; exact absurd hr (List.not_mem_nil r))
    sessConsentOk_clear).1

/-- Witness for C4 at a concrete registered caller. -/
theorem C4_idempotent_reentry_witness :
    on_user_start_button ⟨[⟨3, 5, "+70", "a", "b", 1, "t"⟩], 3⟩ freshSession
      ⟨5, some ("🚀 Старт"), none⟩ =
      ⟨⟨[⟨3, 5, "+70", "a", "b", 1, "t"⟩], 3⟩, clearSession,
        [.alreadyRegisteredButton 3], false⟩ :=
  (C4_idempotent_reentry ⟨[⟨3, 5, "+70", "a", "b", 1, "t"⟩], 3⟩ freshSession
    ⟨5, some ("🚀 Старт"), none⟩ ⟨3, 5, "+70", "a", "b", 1, "t"⟩ rfl).1
